import Mathlib

/-!
Verification of the txstatsd ingest-and-aggregate core
(`txstatsd/server/processor.py`) and the client-side sender
(`txstatsd/metrics/metrics.py`) under Python 3 semantics.

Modelling conventions:
* byte strings are `List Nat` (one entry per byte);
* Python floats are modelled as exact rationals `ℚ` (IEEE rounding is not
  modelled; all claims are stated at the level of the arithmetic formulas);
* Python `int(x)` truncates toward zero, `round(x)` rounds half to even;
* `a / b` is Python 3 true division (on `ℚ`); the model records explicitly
  where Python would raise `ZeroDivisionError`, since `ℚ` division by zero
  yields 0;
* an impure call to `self.time_function()` is modelled by reading the stream
  `tf : ℕ → ℚ` at an index threaded through the state (`tfi`);
* a raised exception is a distinguished result constructor carrying the
  state as mutated up to the raise.
-/

/-- A byte string: one `Nat` per byte. -/
abbrev ByteStr := List Nat

/-- The bytes of an ASCII string literal. -/
def strB (s : String) : ByteStr := s.toList.map Char.toNat

/-- ASCII whitespace, the byte class matched by the regex `\s` on bytes and
stripped by `bytes.strip()`: space, `\t`, `\n`, `\v`, `\f`, `\r`. -/
def isWS (b : Nat) : Bool := b == 32 || b == 9 || b == 10 || b == 11 || b == 12 || b == 13

/-- ASCII digit `0`-`9`. -/
def isDigit (b : Nat) : Bool := 48 ≤ b && b ≤ 57

/-- A byte matched by `[a-zA-Z_\-0-9\.]`, the complement of the
`NON_ALNUM` regex in `processor.py`. -/
def isSafeByte (b : Nat) : Bool :=
  (97 ≤ b && b ≤ 122) || (65 ≤ b && b ≤ 90) || isDigit b || b == 95 || b == 45 || b == 46

/-- Lexicographic order on byte strings, as Python compares `bytes`. -/
def bytesLE : ByteStr → ByteStr → Bool
  | [], _ => true
  | _ :: _, [] => false
  | a :: x, b :: y => if a < b then true else if b < a then false else bytesLE x y

/-- Decimal digits of a natural number, as bytes (models `b"%d" % n`). -/
def natDigits (n : ℕ) : ByteStr := (Nat.toDigits 10 n).map Char.toNat

/-- `bytes.strip()`: drop ASCII whitespace from both ends. -/
def pyStrip (s : ByteStr) : ByteStr :=
  ((s.dropWhile isWS).reverse.dropWhile isWS).reverse

/-- `s.split(sep, 1)` for a one-byte separator that occurs in `s`:
the parts before and after the first occurrence.  (When the separator does
not occur Python returns the whole string as a single part; all call sites
in the source are guarded by a containment test, and the model returns
`(s, [])` in that unreachable case.) -/
def splitFirst (c : Nat) : ByteStr → ByteStr × ByteStr
  | [] => ([], [])
  | b :: rest =>
    if b = c then ([], rest)
    else
      let p := splitFirst c rest
      (b :: p.1, p.2)

/-- `s.split(sep)` for a one-byte separator: all parts (`n` separators give
`n + 1` parts, empty parts included), as in Python. -/
def pySplit (c : Nat) : ByteStr → List ByteStr
  | [] => [[]]
  | b :: rest =>
    if b = c then [] :: pySplit c rest
    else
      match pySplit c rest with
      | [] => [[b]]
      | p :: ps => (b :: p) :: ps

/-- Consume a maximal run of ASCII digits, extending the accumulator `acc`
in base 10; returns the new accumulator, the number of digits consumed and
the remaining bytes. -/
def takeDigitsAcc (acc : ℕ) (cnt : ℕ) : ByteStr → ℕ × ℕ × ByteStr
  | [] => (acc, cnt, [])
  | b :: rest =>
    if isDigit b then takeDigitsAcc (10 * acc + (b - 48)) (cnt + 1) rest
    else (acc, cnt, b :: rest)

/-- Exponent digits after an optional sign: at least one digit required and
nothing may follow (models the tail of CPython's float grammar). -/
def parseExpDigits (neg : Bool) (s : ByteStr) : Option (Bool × ℕ) :=
  let t := takeDigitsAcc 0 0 s
  if t.2.1 = 0 ∨ t.2.2 ≠ [] then none else some (neg, t.1)

/-- Optional sign of a float exponent. -/
def parseExpSign : ByteStr → Option (Bool × ℕ)
  | 43 :: rest => parseExpDigits false rest
  | 45 :: rest => parseExpDigits true rest
  | s => parseExpDigits false s

/-- The optional exponent part `[(e|E)[+-]digits]` of a float literal;
`some (neg, v)` is exponent `±v`. -/
def parseExpPart : ByteStr → Option (Bool × ℕ)
  | [] => some (false, 0)
  | 101 :: rest => parseExpSign rest
  | 69 :: rest => parseExpSign rest
  | _ => none

/-- Mantissa `digits [. digits]` with at least one digit on either side of
the dot; returns the digit string's value, the number of fractional digits
and the remaining bytes. -/
def parseMantissa (s : ByteStr) : Option (ℕ × ℕ × ByteStr) :=
  let t1 := takeDigitsAcc 0 0 s
  match t1.2.2 with
  | 46 :: rest =>
    let t2 := takeDigitsAcc t1.1 0 rest
    if t1.2.1 + t2.2.1 = 0 then none else some (t2.1, t2.2.1, t2.2.2)
  | other => if t1.2.1 = 0 then none else some (t1.1, 0, other)

/-- An unsigned float literal, digit level: mantissa digits value,
fractional digit count, exponent sign and exponent value. -/
def pyFloatRawUnsigned (s : ByteStr) : Option (ℕ × ℕ × Bool × ℕ) :=
  match parseMantissa s with
  | none => none
  | some (m, fc, rest) => (parseExpPart rest).map (fun e => (m, fc, e.1, e.2))

/-- A float literal, digit level: leading sign plus the unsigned part. -/
def pyFloatRaw (s : ByteStr) : Option (Bool × ℕ × ℕ × Bool × ℕ) :=
  match pyStrip s with
  | 43 :: rest => (pyFloatRawUnsigned rest).map (fun u => (false, u))
  | 45 :: rest => (pyFloatRawUnsigned rest).map (fun u => (true, u))
  | rest => (pyFloatRawUnsigned rest).map (fun u => (false, u))

/-- The rational denoted by a digit-level float literal. -/
def floatValue (p : Bool × ℕ × ℕ × Bool × ℕ) : ℚ :=
  (if p.1 then -1 else 1) * ((p.2.1 : ℚ) / 10 ^ p.2.2.1) *
    (if p.2.2.2.1 then 1 / 10 ^ p.2.2.2.2 else (10 : ℚ) ^ p.2.2.2.2)

/-- CPython `float(bytes)` on the decimal core of its grammar: surrounding
ASCII whitespace, an optional sign, `digits [. digits] [(e|E)[+-]digits]`
with at least one mantissa digit.  `none` models the `ValueError` raise.
(The `inf`/`nan` spellings and PEP 515 underscores are not modelled; no
claim depends on them.) -/
def pyFloat (s : ByteStr) : Option ℚ :=
  (pyFloatRaw s).map floatValue

/-- Python 3 `round(x)`: round half to even. -/
def pyRound (x : ℚ) : ℤ :=
  if x - (⌊x⌋ : ℚ) < 1 / 2 then ⌊x⌋
  else if (1 : ℚ) / 2 < x - (⌊x⌋ : ℚ) then ⌊x⌋ + 1
  else if ⌊x⌋ % 2 = 0 then ⌊x⌋ else ⌊x⌋ + 1

/-- Python `int(x)` on a float: truncate toward zero. -/
def pyInt (x : ℚ) : ℤ := if x < 0 then ⌈x⌉ else ⌊x⌋

/-- Insert into a list sorted by the boolean relation `le`. -/
def insertB (le : α → α → Bool) (a : α) : List α → List α
  | [] => [a]
  | b :: rest => if le a b then a :: b :: rest else b :: insertB le a rest

/-- Insertion sort by the boolean relation `le`; models Python's
`list.sort()` / `sorted()` (any stable comparison sort computes the same
list). -/
def isort (le : α → α → Bool) : List α → List α
  | [] => []
  | a :: rest => insertB le a (isort le rest)

/-- `≤` on `ℚ` as a boolean, the comparison used to sort timer samples. -/
def ratLE (a b : ℚ) : Bool := decide (a ≤ b)

/-- Lookup in a Python dict modelled as an insertion-ordered association
list. -/
def alGet (k : ByteStr) : List (ByteStr × β) → Option β
  | [] => none
  | (k', v) :: rest => if k' = k then some v else alGet k rest

/-- `d[k] = v` on a Python dict modelled as an insertion-ordered association
list: overwrite in place if present, else append. -/
def alSet (k : ByteStr) (v : β) : List (ByteStr × β) → List (ByteStr × β)
  | [] => [(k, v)]
  | (k', v') :: rest => if k' = k then (k, v) :: rest else (k', v') :: alSet k v rest

/-- An emission triple `(name, value, timestamp)` produced by the flush
pipeline.  Values are rationals (Python emits a mix of ints and floats). -/
abbrev Emission := ByteStr × ℚ × ℤ

/-- Result of a Python call that either returns a value or raises an
exception to its caller; the `exn` payload is the state as mutated up to
the raise. -/
inductive PyEx (σ : Type) where
  | ok (s : σ)
  | exn (s : σ)
deriving DecidableEq, Repr

/-- Result of `process`: a normal return, a `fail()`-logged drop (also a
normal return in Python), or an uncaught exception propagating to the
caller. -/
inductive POut (σ : Type) where
  | ok (s : σ)
  | failed (s : σ)
  | exn (s : σ)
deriving DecidableEq, Repr

/-- External collaborators of the processor, plus the wall clock.
`tf` is the stream of successive values returned by `time_function`.
`MeterMetricReporter` (imported from `txstatsd.metrics.metermetric`, not
part of the two sources under scrutiny) and plugin metric objects are
opaque: their construction, update and report/flush behaviours are
arbitrary parameters of the model. -/
structure Ops (μ : Type) (π : Type) where
  tf : ℕ → ℚ
  meterNew : ByteStr → μ
  meterMark : μ → ℚ → μ
  meterReport : μ → ℤ → List Emission × μ
  pluginBuild : ByteStr → ByteStr → π
  pluginProc : π → List ByteStr → π
  pluginFlushFn : π → ℚ → ℤ → List Emission × π

/-- The mutable state of a `MessageProcessor` (its `__init__` fields),
with Python dicts as insertion-ordered association lists and the
wall-clock read position `tfi` threaded explicitly. -/
structure ProcState (μ : Type) (π : Type) where
  process_timings : List (ByteStr × ℚ)
  by_type : List (ByteStr × ℕ)
  last_flush_duration : ℚ
  last_process_duration : ℚ
  timer_metrics : List (ByteStr × List ℚ)
  counter_metrics : List (ByteStr × ℚ)
  gauge_metrics : List (ℚ × ByteStr)
  meter_metrics : List (ByteStr × μ)
  plugins : List ByteStr
  plugin_metrics : List (ByteStr × π)
  tfi : ℕ

/-- A freshly constructed `MessageProcessor` with the given registered
plugin metric types. -/
def initState (plugins : List ByteStr) : ProcState μ π :=
  { process_timings := [], by_type := [], last_flush_duration := 0,
    last_process_duration := 0, timer_metrics := [], counter_metrics := [],
    gauge_metrics := [], meter_metrics := [], plugins := plugins,
    plugin_metrics := [], tfi := 0 }

/-- `self.stats_prefix = b"stats."` (renamed: Lean-side naming). -/
def prefixStats : ByteStr := strB "stats."

/-- `self.internal_metrics_prefix = b"statsd."`. -/
def prefixInternal : ByteStr := strB "statsd."

/-- `self.count_prefix = b"stats_counts."`. -/
def prefixCounts : ByteStr := strB "stats_counts."

/-- `self.timer_prefix = self.stats_prefix + b"timers."`. -/
def prefixTimer : ByteStr := prefixStats ++ strB "timers."

/-- `self.gauge_prefix = self.stats_prefix + b"gauge."`. -/
def prefixGauge : ByteStr := prefixStats ++ strB "gauge."

/-- `normalize_key` under Python 3: each of `SPACES.sub("_", key)`,
`SLASHES.sub("-", key)` and `NON_ALNUM.sub("", key)` passes a `str`
replacement to a `bytes` pattern, so the call raises `TypeError` as soon
as the pattern actually matches (the replacement is only joined into the
result when there is a match); with no match the input is returned
unchanged.  `.error` models the raised `TypeError`. -/
def normalize_key (key : ByteStr) : Except Unit ByteStr :=
  if key.any isWS then .error ()
  else if key.any (· == 47) then .error ()
  else if key.any (fun b => !isSafeByte b) then .error ()
  else .ok key

/-- `RATE.match(field)` for `RATE = re.compile(b"^@([\d\.]+)")`:
anchored at the start, group 1 is the maximal run of digits and dots
after `@` (at least one byte); trailing bytes are ignored. -/
def rateMatch (s : ByteStr) : Option ByteStr :=
  match s with
  | 64 :: rest =>
    let run := rest.takeWhile (fun b => isDigit b || b == 46)
    if run.isEmpty then none else some run
  | _ => none

/-- `compose_timer_metric`: append the duration to the key's bucket,
creating the bucket on first sight. -/
def compose_timer_metric (key : ByteStr) (duration : ℚ)
    (tm : List (ByteStr × List ℚ)) : List (ByteStr × List ℚ) :=
  match alGet key tm with
  | none => alSet key [duration] tm
  | some ds => alSet key (ds ++ [duration]) tm

/-- `compose_counter_metric`: ensure the slot exists (set to 0), then
`self.counter_metrics[key] += value * (1 / float(rate))`.  `rate` is the
Python argument: the int `1` (`none`) or the bytes matched by `RATE`
(`some bs`).  `float(rate)` may raise `ValueError` (unparseable bytes) and
`1 / 0.0` raises `ZeroDivisionError`: both are `.exn`, carrying the state
with the slot already ensured. -/
def compose_counter_metric (key : ByteStr) (value : ℚ) (rate : Option ByteStr)
    (cm : List (ByteStr × ℚ)) : PyEx (List (ByteStr × ℚ)) :=
  let cm1 := match alGet key cm with
    | none => alSet key 0 cm
    | some _ => cm
  match rate with
  | none => .ok (alSet key ((alGet key cm1).getD 0 + value * (1 / 1)) cm1)
  | some bs =>
    match pyFloat bs with
    | none => .exn cm1
    | some r =>
      if r = 0 then .exn cm1
      else .ok (alSet key ((alGet key cm1).getD 0 + value * (1 / r)) cm1)

/-- `compose_gauge_metric`: `self.gauge_metrics.append([value, key])`. -/
def compose_gauge_metric (key : ByteStr) (value : ℚ)
    (gm : List (ℚ × ByteStr)) : List (ℚ × ByteStr) :=
  gm ++ [(value, key)]

/-- `compose_meter_metric`: build a `MeterMetricReporter` on first sight,
then `mark(value)` on the stored reporter. -/
def compose_meter_metric (ops : Ops μ π) (key : ByteStr) (value : ℚ)
    (mm : List (ByteStr × μ)) : List (ByteStr × μ) :=
  match alGet key mm with
  | none => alSet key (ops.meterMark (ops.meterNew key) value) (alSet key (ops.meterNew key) mm)
  | some m => alSet key (ops.meterMark m value) mm

/-- `process_timer_metric`: `float(duration)` failures are logged and
dropped (`fail` returns normally). -/
def process_timer_metric (key : ByteStr) (duration : ByteStr)
    (st : ProcState μ π) : POut (ProcState μ π) :=
  match pyFloat duration with
  | none => .failed st
  | some d => .ok { st with timer_metrics := compose_timer_metric key d st.timer_metrics }

/-- `process_counter_metric`: parse the value field; with three fields the
third must match `RATE` (else `fail`); then dispatch to
`compose_counter_metric` with the matched group (or the default rate 1). -/
def process_counter_metric (key : ByteStr) (fields : List ByteStr)
    (st : ProcState μ π) : POut (ProcState μ π) :=
  match pyFloat (fields.headD []) with
  | none => .failed st
  | some value =>
    let go : Option ByteStr → POut (ProcState μ π) := fun rate =>
      match compose_counter_metric key value rate st.counter_metrics with
      | .ok cm' => .ok { st with counter_metrics := cm' }
      | .exn cm' => .exn { st with counter_metrics := cm' }
    if fields.length = 3 then
      match rateMatch (fields.getD 2 []) with
      | none => .failed st
      | some g => go (some g)
    else go none

/-- `process_gauge_metric`: the value field must not contain `:`;
on an unparseable float the source calls `fail` but does **not** return,
then calls `compose_gauge_metric(key, value)` with `value` unbound, which
raises `UnboundLocalError` — modelled as `.exn` with no state change. -/
def process_gauge_metric (key : ByteStr) (composite : ByteStr)
    (st : ProcState μ π) : POut (ProcState μ π) :=
  let values := pySplit 58 composite
  if values.length ≠ 1 then .failed st
  else
    match pyFloat (values.headD []) with
    | none => .exn st
    | some v => .ok { st with gauge_metrics := compose_gauge_metric key v st.gauge_metrics }

/-- `process_meter_metric`: same shape as the gauge path (including the
unbound-`value` `UnboundLocalError` on an unparseable float); the stray
`print(composite)` has no state effect and is not modelled. -/
def process_meter_metric (ops : Ops μ π) (key : ByteStr) (composite : ByteStr)
    (st : ProcState μ π) : POut (ProcState μ π) :=
  let values := pySplit 58 composite
  if values.length ≠ 1 then .failed st
  else
    match pyFloat (values.headD []) with
    | none => .exn st
    | some v => .ok { st with meter_metrics := compose_meter_metric ops key v st.meter_metrics }

/-- `process_plugin_metric`: build the plugin metric on first sight of the
key, then `instance.process(fields)`. -/
def process_plugin_metric (ops : Ops μ π) (metric_type : ByteStr) (key : ByteStr)
    (items : List ByteStr) (st : ProcState μ π) : ProcState μ π :=
  match alGet key st.plugin_metrics with
  | none =>
    let p := ops.pluginBuild metric_type key
    { st with plugin_metrics := alSet key (ops.pluginProc p items) (alSet key p st.plugin_metrics) }
  | some p =>
    { st with plugin_metrics := alSet key (ops.pluginProc p items) st.plugin_metrics }

/-- The tail of `process_message` after a dispatch that returned normally:
read the clock again and accrue `process_timings[metric_type]` and
`by_type[metric_type]` (both `setdefault`-created). -/
def afterTimings (ops : Ops μ π) (mt : ByteStr) (start : ℚ)
    (st : ProcState μ π) : ProcState μ π :=
  let endT := ops.tf st.tfi
  let st := { st with tfi := st.tfi + 1 }
  let pt := match alGet mt st.process_timings with
    | none => alSet mt 0 st.process_timings
    | some _ => st.process_timings
  let pt := alSet mt ((alGet mt pt).getD 0 + (endT - start)) pt
  let bt := match alGet mt st.by_type with
    | none => alSet mt 0 st.by_type
    | some _ => st.by_type
  let bt := alSet mt ((alGet mt bt).getD 0 + 1) bt
  { st with process_timings := pt, by_type := bt }

/-- `process_message`: read the clock, dispatch on the metric-type tag in
source order (`c`, `ms`, `g`, `m`, registered plugins, else `fail` with an
early return that skips the timing bookkeeping), then accrue the per-type
timings for any dispatch that returned normally. -/
def process_message (ops : Ops μ π) (metric_type : ByteStr) (key : ByteStr)
    (fields : List ByteStr) (st : ProcState μ π) : POut (ProcState μ π) :=
  let start := ops.tf st.tfi
  let st := { st with tfi := st.tfi + 1 }
  let dispatched : POut (ProcState μ π) :=
    if metric_type = strB "c" then process_counter_metric key fields st
    else if metric_type = strB "ms" then process_timer_metric key (fields.headD []) st
    else if metric_type = strB "g" then process_gauge_metric key (fields.headD []) st
    else if metric_type = strB "m" then process_meter_metric ops key (fields.headD []) st
    else if metric_type ∈ st.plugins then
      .ok (process_plugin_metric ops metric_type key fields st)
    else .failed st
  match metric_type = strB "c" || metric_type = strB "ms" || metric_type = strB "g"
      || metric_type = strB "m" || decide (metric_type ∈ st.plugins) with
  | false => dispatched
  | true =>
    match dispatched with
    | .exn s => .exn s
    | .ok s => .ok (afterTimings ops metric_type start s)
    | .failed s => .failed (afterTimings ops metric_type start s)

/-- `BaseMessageProcessor.process`: validate the payload shape (`:`
present, `|` present after the first `:`, two or three `|`-fields),
normalize the key (which under Python 3 raises `TypeError` for any key that
actually needs normalizing) and dispatch to `process_message`. -/
def process (ops : Ops μ π) (message : ByteStr) (st : ProcState μ π) :
    POut (ProcState μ π) :=
  if 58 ∉ message then .failed st
  else
    let kd := splitFirst 58 (pyStrip message)
    if 124 ∉ kd.2 then .failed st
    else
      let fields := pySplit 124 kd.2
      if fields.length < 2 ∨ 3 < fields.length then .failed st
      else
        match normalize_key kd.1 with
        | .error _ => .exn st
        | .ok key => process_message ops (fields.getD 1 []) key fields st

/-- `flush_counter_metrics`: for every slot, reset it to 0 and yield the
pair-group `(stats.<key>, int(count / interval)), (stats_counts.<key>,
count)`.  When `interval = 0` Python raises `ZeroDivisionError` at the
first slot (`.error`; the partial reset of that first slot is not
modelled, no claim depends on it). -/
def flush_counter_metrics (interval : ℚ) (ts : ℤ) (cm : List (ByteStr × ℚ)) :
    Except Unit (List (List Emission) × List (ByteStr × ℚ)) :=
  if interval = 0 ∧ cm ≠ [] then .error ()
  else
    .ok (cm.map (fun kc =>
           [(prefixStats ++ kc.1, (pyInt (kc.2 / interval) : ℚ), ts),
            (prefixCounts ++ kc.1, kc.2, ts)]),
         cm.map (fun kc => (kc.1, 0)))

/-- The five-entry emission group of one timer bucket, sorted by full
metric name as `sorted(...)` does (the five names are always distinct, so
the tuple comparison never goes past the name). -/
def timerGroup (percent : ℕ) (ts : ℤ) (key : ByteStr)
    (lower mean tu upper : ℚ) (count : ℕ) : List Emission :=
  isort (fun a b => bytesLE a.1 b.1)
    [((prefixTimer ++ key) ++ strB ".mean", mean, ts),
     ((prefixTimer ++ key) ++ strB ".upper", upper, ts),
     ((prefixTimer ++ key) ++ (strB ".upper_" ++ natDigits percent), tu, ts),
     ((prefixTimer ++ key) ++ strB ".lower", lower, ts),
     ((prefixTimer ++ key) ++ strB ".count", (count : ℚ), ts)]

/-- The body of the `flush_timer_metrics` loop for one non-empty bucket:
sort, read off `lower`/`upper`/`count`, and for more than one sample trim
to `timers[:index]` with `index = count - int(round((100 - percent) / 100
* count))`.  When `index = 0` Python raises `IndexError` at
`timers[-1]` on the empty slice (`none`).  (`index < 0` cannot happen for
a natural `percent`.) -/
def flushTimerBucket (percent : ℕ) (ts : ℤ) (key : ByteStr)
    (timers : List ℚ) : Option (List Emission) :=
  let sorted := isort ratLE timers
  let lower := sorted.headD 0
  let upper := sorted.getLastD 0
  let count := timers.length
  if 1 < count then
    let threshold_value : ℚ := ((100 : ℚ) - (percent : ℚ)) / 100
    let index : ℤ := (count : ℤ) - pyRound (threshold_value * (count : ℚ))
    if index ≤ 0 then none
    else
      let kept := sorted.take index.toNat
      let tu := kept.getLastD 0
      let mean : ℤ := pyInt (kept.sum / (index : ℚ))
      some (timerGroup percent ts key lower (mean : ℚ) tu upper count)
  else
    some (timerGroup percent ts key lower lower upper upper count)

/-- The `flush_timer_metrics` loop: empty buckets are skipped (and kept),
non-empty buckets are reset to `[]` and emit their group; an `IndexError`
inside a bucket aborts the generator (`.error`; groups already yielded
before the raise are not modelled, no claim depends on them). -/
def flushTimerGo (percent : ℕ) (ts : ℤ) :
    List (ByteStr × List ℚ) →
    Except Unit (List (List Emission) × List (ByteStr × List ℚ))
  | [] => .ok ([], [])
  | (key, timers) :: rest =>
    if timers.isEmpty then
      match flushTimerGo percent ts rest with
      | .error e => .error e
      | .ok r => .ok (r.1, (key, timers) :: r.2)
    else
      match flushTimerBucket percent ts key timers with
      | none => .error ()
      | some g =>
        match flushTimerGo percent ts rest with
        | .error e => .error e
        | .ok r => .ok (g :: r.1, (key, []) :: r.2)

/-- `flush_timer_metrics`. -/
def flush_timer_metrics (percent : ℕ) (ts : ℤ) (tm : List (ByteStr × List ℚ)) :
    Except Unit (List (List Emission) × List (ByteStr × List ℚ)) :=
  flushTimerGo percent ts tm

/-- `flush_gauge_metrics`: one singleton group per stored `(value, key)`
pair, in insertion order; the sequence itself is left untouched. -/
def flush_gauge_metrics (ts : ℤ) (gm : List (ℚ × ByteStr)) :
    List (List Emission) × List (ℚ × ByteStr) :=
  (gm.map (fun m => [(prefixGauge ++ m.2 ++ strB ".value", m.1, ts)]), gm)

/-- `flush_meter_metrics`: one group per reporter, from
`metric.report(timestamp)` (opaque; the reporter's own state may change). -/
def flush_meter_metrics (ops : Ops μ π) (ts : ℤ) (mm : List (ByteStr × μ)) :
    List (List Emission) × List (ByteStr × μ) :=
  (mm.map (fun km => (ops.meterReport km.2 ts).1),
   mm.map (fun km => (km.1, (ops.meterReport km.2 ts).2)))

/-- `flush_plugin_metrics`: one group per plugin metric, from
`metric.flush(interval, timestamp)` (opaque). -/
def flush_plugin_metrics (ops : Ops μ π) (interval : ℚ) (ts : ℤ)
    (pm : List (ByteStr × π)) : List (List Emission) × List (ByteStr × π) :=
  (pm.map (fun kp => (ops.pluginFlushFn kp.2 interval ts).1),
   pm.map (fun kp => (kp.1, (ops.pluginFlushFn kp.2 interval ts).2)))

/-- `flush_metrics_summary`: the `statsd.numStats` group, one
count/duration group per kind in `per_metric` (insertion order: counter,
timer, gauge, meter, plugin), one count/duration group per entry of
`process_timings`, then clear the ingest timings. -/
def flush_metrics_summary (num_stats : ℕ) (per_metric : List (ByteStr × ℕ × ℚ))
    (ts : ℤ) (st : ProcState μ π) : List (List Emission) × ProcState μ π :=
  ([(prefixInternal ++ strB "numStats", (num_stats : ℚ), ts)] ::
     (per_metric.map (fun nvd =>
       [(prefixInternal ++ strB "flush." ++ nvd.1 ++ strB ".count", (nvd.2.1 : ℚ), ts),
        (prefixInternal ++ strB "flush." ++ nvd.1 ++ strB ".duration", nvd.2.2 * 1000, ts)]) ++
      st.process_timings.map (fun md =>
       [(prefixInternal ++ strB "receive." ++ md.1 ++ strB ".count",
         (((alGet md.1 st.by_type).getD 0 : ℕ) : ℚ), ts),
        (prefixInternal ++ strB "receive." ++ md.1 ++ strB ".duration", md.2 * 1000, ts)])),
   { st with
     last_flush_duration := (per_metric.map (fun nvd => nvd.2.2)).sum,
     last_process_duration := (st.process_timings.map (fun md => md.2)).sum,
     process_timings := [], by_type := [] })

/-- `MessageProcessor.flush`, fully consumed: `interval = interval / 1000`
(Python 3 true division), `timestamp = int(time_function())`, then the
counter, timer, gauge, meter and plugin groups in that order followed by
the summary.  Eleven wall-clock reads happen in consumption order; the
per-kind durations are the differences of the surrounding reads. -/
def flush (ops : Ops μ π) (interval0 : ℚ) (percent : ℕ) (st : ProcState μ π) :
    Except Unit (List (List Emission) × ProcState μ π) :=
  let interval := interval0 / 1000
  let ts : ℤ := pyInt (ops.tf st.tfi)
  let startC := ops.tf (st.tfi + 1)
  match flush_counter_metrics interval ts st.counter_metrics with
  | .error _ => .error ()
  | .ok cres =>
    let durC := ops.tf (st.tfi + 2) - startC
    let startT := ops.tf (st.tfi + 3)
    match flush_timer_metrics percent ts st.timer_metrics with
    | .error _ => .error ()
    | .ok tres =>
      let durT := ops.tf (st.tfi + 4) - startT
      let startG := ops.tf (st.tfi + 5)
      let gres := flush_gauge_metrics ts st.gauge_metrics
      let durG := ops.tf (st.tfi + 6) - startG
      let startM := ops.tf (st.tfi + 7)
      let mres := flush_meter_metrics ops ts st.meter_metrics
      let durM := ops.tf (st.tfi + 8) - startM
      let startP := ops.tf (st.tfi + 9)
      let pres := flush_plugin_metrics ops interval ts st.plugin_metrics
      let durP := ops.tf (st.tfi + 10) - startP
      let num_stats := cres.1.length + tres.1.length + gres.1.length +
        mres.1.length + pres.1.length
      let per_metric : List (ByteStr × ℕ × ℚ) :=
        [(strB "counter", cres.1.length, durC), (strB "timer", tres.1.length, durT),
         (strB "gauge", gres.1.length, durG), (strB "meter", mres.1.length, durM),
         (strB "plugin", pres.1.length, durP)]
      let st1 := { st with
        counter_metrics := cres.2, timer_metrics := tres.2,
        meter_metrics := mres.2, plugin_metrics := pres.2,
        tfi := st.tfi + 11 }
      let sres := flush_metrics_summary num_stats per_metric ts st1
      .ok (cres.1 ++ tres.1 ++ gres.1 ++ mres.1 ++ pres.1 ++ sres.1, sres.2)

/-- Repeated `flush_gauge_metrics`, threading the (unchanged) gauge state:
the list of the emission-group lists of `k` consecutive gauge flushes. -/
def flushGaugeRepeat (k : ℕ) (ts : ℤ) (gm : List (ℚ × ByteStr)) :
    List (List (List Emission)) :=
  match k with
  | 0 => []
  | k + 1 =>
    let r := flush_gauge_metrics ts gm
    r.1 :: flushGaugeRepeat k ts r.2

/-- The packet-building loop of `Metrics.flush` (`metrics.py`): append the
next line when the would-be packet stays under 512 characters, else emit
the packet built so far and start over from the line. -/
def metricsFlushGo (data : ByteStr) : List ByteStr → List ByteStr
  | [] => [data]
  | stat :: rest =>
    if 512 ≤ stat.length + data.length + 1 then data :: metricsFlushGo stat rest
    else metricsFlushGo (data ++ 10 :: stat) rest

/-- `Metrics.flush`: gather the pipelined lines of all metrics and write
them coalesced into packets; `popleft()` on an empty deque raises
`IndexError` (`none`). -/
def metricsFlush (lines : List ByteStr) : Option (List ByteStr) :=
  match lines with
  | [] => none
  | d :: rest => some (metricsFlushGo d rest)

/-- Lines joined by `\n` (the byte 10), as `b"\n".join(lines)`. -/
def joinNL : List ByteStr → ByteStr
  | [] => []
  | [x] => x
  | x :: rest => x ++ 10 :: joinNL rest

/-- The per-bucket timer statistics `(lower, mean, threshold_upper, upper,
count)` as claim C3 states them, with the one amendment its counterexample
forces: sort ascending, `drop = round((1 - percent/100) * n)`, keep the
first `n - drop` samples, `threshold_upper` is the last kept sample and
`mean` is the **truncation toward zero** (not the floor, which is what the
claim said) of `sum(kept) / (n - drop)`; for `n = 1`, `mean = lower` and
`threshold_upper = upper`. -/
def specTimerStats (percent : ℕ) (samples : List ℚ) : ℚ × ℚ × ℚ × ℚ × ℕ :=
  let n := samples.length
  let sorted := isort ratLE samples
  let lower := sorted.headD 0
  let upper := sorted.getLastD 0
  if n = 1 then (lower, lower, upper, upper, n)
  else
    let drop : ℤ := pyRound ((1 - (percent : ℚ) / 100) * (n : ℚ))
    let kept := sorted.take ((n : ℤ) - drop).toNat
    let tu := kept.getLastD 0
    let mean : ℤ := pyInt (kept.sum / ((n : ℚ) - (drop : ℚ)))
    (lower, (mean : ℚ), tu, upper, n)

/-- Trivial instantiation of the opaque collaborators: a frozen clock and
unit meter/plugin objects reporting nothing. -/
def opsTrivial : Ops Unit Unit :=
  { tf := fun _ => 0, meterNew := fun _ => (), meterMark := fun _ _ => (),
    meterReport := fun _ _ => ([], ()), pluginBuild := fun _ _ => (),
    pluginProc := fun _ _ => (), pluginFlushFn := fun _ _ _ => ([], ()) }

/-- `float(rate)` for the rate argument `compose_counter_metric` receives:
the default int `1`, or the bytes matched by `RATE`. -/
def rateOf : Option ByteStr → Option ℚ
  | none => some 1
  | some bs => pyFloat bs

/-- The population-estimate contribution `v / r` of one accepted counter
sample (rate 1 when the sample carried no rate field). -/
def sampleVal (p : ℚ × Option ByteStr) : ℚ := p.1 / ((rateOf p.2).getD 1)

/-- `compose_counter_metric` folded over a list of accepted samples
`(value, rate argument)`; an exception aborts the sequence. -/
def composeCounterMany (key : ByteStr) :
    List (ℚ × Option ByteStr) → List (ByteStr × ℚ) → PyEx (List (ByteStr × ℚ))
  | [], cm => .ok cm
  | p :: rest, cm =>
    match compose_counter_metric key p.1 p.2 cm with
    | .exn cm' => .exn cm'
    | .ok cm' => composeCounterMany key rest cm'

/-- A processor state holding one gauge sample `g:42|g`. -/
def stC5 : ProcState Unit Unit := { initState [] with gauge_metrics := [(42, strB "g")] }

/-- `stC5` after one flush: only the clock index moved. -/
def stC5' : ProcState Unit Unit := { stC5 with tfi := 11 }

/-- The groups of one (frozen-clock) flush of `stC5`. -/
def gsC5 : List (List Emission) :=
  [[((prefixGauge ++ strB "g") ++ strB ".value", 42, 0)],
   [(prefixInternal ++ strB "numStats", 1, 0)],
   [(prefixInternal ++ strB "flush." ++ strB "counter" ++ strB ".count", 0, 0),
    (prefixInternal ++ strB "flush." ++ strB "counter" ++ strB ".duration", 0, 0)],
   [(prefixInternal ++ strB "flush." ++ strB "timer" ++ strB ".count", 0, 0),
    (prefixInternal ++ strB "flush." ++ strB "timer" ++ strB ".duration", 0, 0)],
   [(prefixInternal ++ strB "flush." ++ strB "gauge" ++ strB ".count", 1, 0),
    (prefixInternal ++ strB "flush." ++ strB "gauge" ++ strB ".duration", 0, 0)],
   [(prefixInternal ++ strB "flush." ++ strB "meter" ++ strB ".count", 0, 0),
    (prefixInternal ++ strB "flush." ++ strB "meter" ++ strB ".duration", 0, 0)],
   [(prefixInternal ++ strB "flush." ++ strB "plugin" ++ strB ".count", 0, 0),
    (prefixInternal ++ strB "flush." ++ strB "plugin" ++ strB ".duration", 0, 0)]]

/-- The groups of one (frozen-clock) flush of the freshly constructed
processor: the summary alone. -/
def gsC7 : List (List Emission) :=
  [[(prefixInternal ++ strB "numStats", 0, 0)],
   [(prefixInternal ++ strB "flush." ++ strB "counter" ++ strB ".count", 0, 0),
    (prefixInternal ++ strB "flush." ++ strB "counter" ++ strB ".duration", 0, 0)],
   [(prefixInternal ++ strB "flush." ++ strB "timer" ++ strB ".count", 0, 0),
    (prefixInternal ++ strB "flush." ++ strB "timer" ++ strB ".duration", 0, 0)],
   [(prefixInternal ++ strB "flush." ++ strB "gauge" ++ strB ".count", 0, 0),
    (prefixInternal ++ strB "flush." ++ strB "gauge" ++ strB ".duration", 0, 0)],
   [(prefixInternal ++ strB "flush." ++ strB "meter" ++ strB ".count", 0, 0),
    (prefixInternal ++ strB "flush." ++ strB "meter" ++ strB ".duration", 0, 0)],
   [(prefixInternal ++ strB "flush." ++ strB "plugin" ++ strB ".count", 0, 0),
    (prefixInternal ++ strB "flush." ++ strB "plugin" ++ strB ".duration", 0, 0)]]

/-- Does a `process` result model an uncaught exception? -/
def POut.isExn : POut σ → Bool
  | .exn _ => true
  | _ => false

/-- Does a `process` result model a normal, accepted return? -/
def POut.isOk : POut σ → Bool
  | .ok _ => true
  | _ => false

/-- Does a `process` result model a `fail()`-logged drop? -/
def POut.isFailed : POut σ → Bool
  | .failed _ => true
  | _ => false

/-! ### Helper lemmas -/

theorem mem_insertB (le : α → α → Bool) (a x : α) (l : List α) :
    x ∈ insertB le a l ↔ x = a ∨ x ∈ l := by
  induction l with
  | nil => simp [insertB]
  | cons b t ih =>
    by_cases h : le a b
    · simp [insertB, h]
    · simp [insertB, h, ih]
      tauto

theorem insertB_perm (le : α → α → Bool) (a : α) (l : List α) :
    List.Perm (insertB le a l) (a :: l) := by
  induction l with
  | nil => simp [insertB]
  | cons b t ih =>
    by_cases h : le a b
    · simp [insertB, h]
    · simp only [insertB, h, if_neg, Bool.false_eq_true, not_false_eq_true]
      exact ((ih.cons b).trans (List.Perm.swap a b t))

theorem isort_perm (le : α → α → Bool) (l : List α) :
    List.Perm (isort le l) l := by
  induction l with
  | nil => simp [isort]
  | cons a t ih => exact (insertB_perm le a (isort le t)).trans (ih.cons a)

theorem isort_length (le : α → α → Bool) (l : List α) :
    (isort le l).length = l.length :=
  (isort_perm le l).length_eq

theorem mem_isort (le : α → α → Bool) (x : α) (l : List α) :
    x ∈ isort le l ↔ x ∈ l :=
  (isort_perm le l).mem_iff

theorem insertB_sorted_rat (a : ℚ) (l : List ℚ) (h : l.Pairwise (· ≤ ·)) :
    (insertB ratLE a l).Pairwise (· ≤ ·) := by
  induction l with
  | nil => simp [insertB]
  | cons b t ih =>
    rcases List.pairwise_cons.mp h with ⟨hb, ht⟩
    by_cases hab : a ≤ b
    · simp only [insertB, ratLE, decide_eq_true_eq, hab, if_pos]
      refine List.pairwise_cons.mpr ⟨?_, h⟩
      intro x hx
      rcases List.mem_cons.mp hx with rfl | hx
      · exact hab
      · exact le_trans hab (hb x hx)
    · simp only [insertB, ratLE, decide_eq_true_eq, hab, if_neg, not_false_eq_true]
      refine List.pairwise_cons.mpr ⟨?_, ih ht⟩
      intro x hx
      rcases (mem_insertB ratLE a x t).mp hx with rfl | hx
      · exact le_of_lt (lt_of_not_le hab)
      · exact hb x hx

theorem isort_sorted_rat (l : List ℚ) : (isort ratLE l).Pairwise (· ≤ ·) := by
  induction l with
  | nil => simp [isort]
  | cons a t ih => exact insertB_sorted_rat a (isort ratLE t) ih

theorem getLastD_mem (l : List α) (d : α) (h : l ≠ []) : l.getLastD d ∈ l := by
  induction l with
  | nil => exact absurd rfl h
  | cons a t ih =>
    cases t with
    | nil => simp
    | cons b u => simpa using Or.inr (ih (by simp))

theorem pairwise_headD_le (l : List ℚ) (d : ℚ) (h : l.Pairwise (· ≤ ·))
    (x : ℚ) (hx : x ∈ l) : l.headD d ≤ x := by
  cases l with
  | nil => simp at hx
  | cons a t =>
    rcases List.mem_cons.mp hx with rfl | hx
    · simp
    · simpa using (List.pairwise_cons.mp h).1 x hx

theorem pairwise_le_getLastD (l : List ℚ) (d : ℚ) (h : l.Pairwise (· ≤ ·))
    (x : ℚ) (hx : x ∈ l) : x ≤ l.getLastD d := by
  induction l with
  | nil => simp at hx
  | cons a t ih =>
    rcases List.pairwise_cons.mp h with ⟨ha, ht⟩
    cases t with
    | nil =>
      rcases List.mem_cons.mp hx with rfl | hx
      · simp
      · simp at hx
    | cons b u =>
      rcases List.mem_cons.mp hx with rfl | hx
      · simpa using ha _ (getLastD_mem (b :: u) d (by simp))
      · simpa using ih ht hx

theorem le_sum_of_forall_le (l : List ℚ) (c : ℚ) (h : ∀ x ∈ l, c ≤ x) :
    c * l.length ≤ l.sum := by
  induction l with
  | nil => simp
  | cons a t ih =>
    have h2 := ih (fun x hx => h x (List.mem_cons_of_mem a hx))
    have ha := h a (List.mem_cons_self a t)
    simp only [List.length_cons, List.sum_cons]
    push_cast
    have he : c * ((t.length : ℚ) + 1) = c * (t.length : ℚ) + c := by ring
    rw [he]
    linarith

theorem sum_le_of_forall_le (l : List ℚ) (c : ℚ) (h : ∀ x ∈ l, x ≤ c) :
    l.sum ≤ c * l.length := by
  induction l with
  | nil => simp
  | cons a t ih =>
    have h2 := ih (fun x hx => h x (List.mem_cons_of_mem a hx))
    have ha := h a (List.mem_cons_self a t)
    simp only [List.length_cons, List.sum_cons]
    push_cast
    have he : c * ((t.length : ℚ) + 1) = c * (t.length : ℚ) + c := by ring
    rw [he]
    linarith

theorem le_pyInt (z : ℤ) (x : ℚ) (h : (z : ℚ) ≤ x) : z ≤ pyInt x := by
  unfold pyInt
  split
  · exact le_trans (Int.le_floor.mpr h) (Int.floor_le_ceil x)
  · exact Int.le_floor.mpr h

theorem pyInt_le (z : ℤ) (x : ℚ) (h : x ≤ (z : ℚ)) : pyInt x ≤ z := by
  unfold pyInt
  split
  · exact Int.ceil_le.mpr h
  · exact le_trans (Int.floor_le_floor h) (le_of_eq (Int.floor_intCast z))

theorem pyRound_le_add_half (x : ℚ) : (pyRound x : ℚ) ≤ x + 1 / 2 := by
  unfold pyRound
  have hf := Int.floor_le x
  split
  · linarith
  · split
    · push_cast
      linarith
    · split
      · linarith
      · push_cast
        linarith

theorem pyRound_nonneg (x : ℚ) (h : 0 ≤ x) : 0 ≤ pyRound x := by
  have hf : (0 : ℤ) ≤ ⌊x⌋ := Int.le_floor.mpr (by exact_mod_cast h)
  unfold pyRound
  split
  · exact hf
  · split
    · omega
    · split
      · exact hf
      · omega

theorem alGet_alSet_self (k : ByteStr) (v : β) (l : List (ByteStr × β)) :
    alGet k (alSet k v l) = some v := by
  induction l with
  | nil => simp [alGet, alSet]
  | cons p t ih =>
    by_cases h : p.1 = k
    · simp [alGet, alSet, h]
    · simp [alGet, alSet, h, ih]

theorem alGet_alSet_ne (k k' : ByteStr) (v : β) (l : List (ByteStr × β))
    (h : k' ≠ k) : alGet k' (alSet k v l) = alGet k' l := by
  induction l with
  | nil => simp [alGet, alSet, Ne.symm h]
  | cons p t ih =>
    obtain ⟨pk, pv⟩ := p
    by_cases hp : pk = k
    · subst hp
      simp [alGet, alSet, Ne.symm h]
    · simp [alGet, alSet, hp, ih]

theorem alGet_mem (k : ByteStr) (v : β) (l : List (ByteStr × β))
    (h : alGet k l = some v) : (k, v) ∈ l := by
  induction l with
  | nil => simp [alGet] at h
  | cons p t ih =>
    obtain ⟨pk, pv⟩ := p
    by_cases hp : pk = k
    · simp only [alGet, hp, if_pos] at h
      injection h with hv
      subst hp
      subst hv
      exact List.mem_cons_self _ _
    · simp only [alGet, hp, if_neg, not_false_eq_true] at h
      exact List.mem_cons_of_mem _ (ih h)

theorem bytesLE_append (p x y : ByteStr) :
    bytesLE (p ++ x) (p ++ y) = bytesLE x y := by
  induction p with
  | nil => rfl
  | cons a t ih => simp [bytesLE, ih, lt_irrefl]

theorem timerGroup_eq (percent : ℕ) (ts : ℤ) (key : ByteStr)
    (lower mean tu upper : ℚ) (count : ℕ) :
    timerGroup percent ts key lower mean tu upper count =
      [((prefixTimer ++ key) ++ strB ".count", (count : ℚ), ts),
       ((prefixTimer ++ key) ++ strB ".lower", lower, ts),
       ((prefixTimer ++ key) ++ strB ".mean", mean, ts),
       ((prefixTimer ++ key) ++ strB ".upper", upper, ts),
       ((prefixTimer ++ key) ++ (strB ".upper_" ++ natDigits percent), tu, ts)] := by
  have c1 : ∀ d : ByteStr, bytesLE (strB ".lower") (strB ".count") = false := fun _ => rfl
  have c2 : ∀ d : ByteStr, bytesLE (strB ".upper_" ++ d) (strB ".count") = false := fun _ => rfl
  have c3 : ∀ d : ByteStr, bytesLE (strB ".upper_" ++ d) (strB ".lower") = false := fun _ => rfl
  have c4 : bytesLE (strB ".upper") (strB ".count") = false := rfl
  have c5 : bytesLE (strB ".upper") (strB ".lower") = false := rfl
  have c6 : ∀ d : ByteStr, bytesLE (strB ".upper") (strB ".upper_" ++ d) = true := fun _ => rfl
  have c7 : bytesLE (strB ".mean") (strB ".count") = false := rfl
  have c8 : bytesLE (strB ".mean") (strB ".lower") = false := rfl
  have c9 : bytesLE (strB ".mean") (strB ".upper") = true := rfl
  simp [timerGroup, isort, insertB, bytesLE_append, c1 [], c2 (natDigits percent),
    c3 (natDigits percent), c4, c5, c6 (natDigits percent), c7, c8, c9]

theorem alSet_alSet (k : ByteStr) (v w : β) (l : List (ByteStr × β)) :
    alSet k v (alSet k w l) = alSet k v l := by
  induction l with
  | nil => simp [alSet]
  | cons p t ih =>
    obtain ⟨pk, pv⟩ := p
    by_cases hp : pk = k
    · simp [alSet, hp]
    · simp [alSet, hp, ih]

theorem alGet_map_zero (k : ByteStr) (l : List (ByteStr × ℚ)) :
    alGet k (l.map (fun kc => (kc.1, (0 : ℚ)))) = (alGet k l).map (fun _ => (0 : ℚ)) := by
  induction l with
  | nil => simp [alGet]
  | cons p t ih =>
    by_cases hp : p.1 = k
    · simp [alGet, hp]
    · simp [alGet, hp, ih]

theorem compose_counter_ok (key : ByteStr) (p : ℚ × Option ByteStr)
    (cm : List (ByteStr × ℚ)) (hrp : ∃ r, rateOf p.2 = some r ∧ r ≠ 0) :
    compose_counter_metric key p.1 p.2 cm =
      .ok (alSet key ((alGet key cm).getD 0 + sampleVal p) cm) := by
  obtain ⟨r, hr, hr0⟩ := hrp
  have hsv : sampleVal p = p.1 * (1 / r) := by
    simp [sampleVal, hr, div_eq_mul_inv, one_div]
  cases hp2 : p.2 with
  | none =>
    rw [hp2] at hr
    simp only [rateOf] at hr
    injection hr with hr1
    cases hm : alGet key cm with
    | none =>
      simp [compose_counter_metric, hp2, hm, alSet_alSet, alGet_alSet_self, hsv, ← hr1]
    | some c =>
      simp [compose_counter_metric, hp2, hm, hsv, ← hr1]
  | some bs =>
    rw [hp2] at hr
    simp only [rateOf] at hr
    cases hm : alGet key cm with
    | none =>
      simp [compose_counter_metric, hp2, hm, hr, hr0, alSet_alSet, alGet_alSet_self, hsv]
    | some c =>
      simp [compose_counter_metric, hp2, hm, hr, hr0, hsv]

theorem composeCounterMany_ok (key : ByteStr) (samples : List (ℚ × Option ByteStr))
    (hr : ∀ p ∈ samples, ∃ r, rateOf p.2 = some r ∧ r ≠ 0) :
    ∀ cm c, alGet key cm = some c →
      ∃ cm', composeCounterMany key samples cm = .ok cm' ∧
        alGet key cm' = some (c + (samples.map sampleVal).sum) := by
  induction samples with
  | nil =>
    intro cm c hc
    exact ⟨cm, rfl, by simpa using hc⟩
  | cons p rest ih =>
    intro cm c hc
    have hstep := compose_counter_ok key p cm (hr p (List.mem_cons_self p rest))
    have hget : alGet key (alSet key ((alGet key cm).getD 0 + sampleVal p) cm) =
        some (c + sampleVal p) := by
      rw [alGet_alSet_self, hc]
      simp
    obtain ⟨cm', hrun, hval⟩ := ih (fun q hq => hr q (List.mem_cons_of_mem p hq)) _ _ hget
    refine ⟨cm', ?_, ?_⟩
    · simpa [composeCounterMany, hstep]
    · rw [hval]
      simp [add_assoc]

/-! ### Claim C1 -/

/-- C1: the claim says `process` never raises and that every rejection —
in particular a gauge or meter payload whose value field is not a
parseable float — is logged and dropped via `fail` with no aggregator
state mutated.  Evaluating the code at the failing inputs `b"g:abc|g"`
and `b"m:abc|m"` shows `process` instead raising `UnboundLocalError`
(`fail` is called without `return`, then the composer is invoked with the
unbound local `value`): the exception propagates to the caller with only
the threaded clock index advanced. -/
theorem c1_process_gauge_meter_badfloat_raises {μ π : Type} (ops : Ops μ π)
    (st : ProcState μ π) :
    process ops (strB "g:abc|g") st = .exn { st with tfi := st.tfi + 1 } ∧
    process ops (strB "m:abc|m") st = .exn { st with tfi := st.tfi + 1 } :=
  ⟨rfl, rfl⟩

/-! ### Claim C8 -/

/-- C8: the claim says `normalize_key` turns whitespace runs into `_`,
slash runs into `-`, drops unsafe bytes, and is idempotent.  Under
Python 3 the code instead raises `TypeError` (a `str` replacement is
passed to a `bytes` pattern) on every key that actually needs a
substitution — e.g. `b"a b"`, `b"a/b"`, `b"a,b"` — and acts as the
identity on keys that are already clean. -/
theorem c8_normalize_key_raises :
    normalize_key (strB "a b") = .error () ∧
    normalize_key (strB "a/b") = .error () ∧
    normalize_key (strB "a,b") = .error () ∧
    normalize_key (strB "a_b.c-d") = .ok (strB "a_b.c-d") :=
  ⟨rfl, rfl, rfl, rfl⟩

/-! ### Claim C2 -/

/-- C2, counterexample: the claim says the flushed `stats.<k>` value
equals the accumulated sum divided by the interval in seconds.  With one
accepted sample of value 3 and interval 10 s the code emits
`int(3 / 10) = 0`, not `3 / 10`. -/
theorem c2_counterexample :
    flush_counter_metrics 10 0 [(strB "foo", 3)] =
      .ok ([[(strB "stats.foo", (0 : ℚ), 0), (strB "stats_counts.foo", 3, 0)]],
           [(strB "foo", 0)]) ∧
    (0 : ℚ) ≠ 3 / 10 := by
  constructor
  · simp [flush_counter_metrics, prefixStats, prefixCounts]
    norm_num [pyInt]
    exact ⟨by decide, by decide⟩
  · norm_num

/-- C2 (amended): after `N` accepted counter samples with values `vᵢ` and
rate arguments denoting nonzero rates `rᵢ` (default rate 1) on a slot
that a previous flush left at 0 (or a fresh key with at least one
sample), the slot holds `Σ vᵢ/rᵢ`; a flush with a nonzero interval emits
the group `(stats.<k>, int((Σ vᵢ/rᵢ) / interval)), (stats_counts.<k>,
Σ vᵢ/rᵢ)` — the per-second value is the **int-truncation** of the sum
divided by the interval, not the exact quotient the claim stated — and
resets the slot to 0 while retaining the entry. -/
theorem c2_counter_accumulate_flush (key : ByteStr)
    (samples : List (ℚ × Option ByteStr)) (cm0 : List (ByteStr × ℚ))
    (interval : ℚ) (ts : ℤ)
    (h0 : alGet key cm0 = some 0 ∨ (alGet key cm0 = none ∧ samples ≠ []))
    (hr : ∀ p ∈ samples, ∃ r, rateOf p.2 = some r ∧ r ≠ 0)
    (hi : interval ≠ 0) :
    ∃ cm1 gs cm2,
      composeCounterMany key samples cm0 = .ok cm1 ∧
      alGet key cm1 = some ((samples.map sampleVal).sum) ∧
      flush_counter_metrics interval ts cm1 = .ok (gs, cm2) ∧
      [(prefixStats ++ key, (pyInt ((samples.map sampleVal).sum / interval) : ℚ), ts),
       (prefixCounts ++ key, (samples.map sampleVal).sum, ts)] ∈ gs ∧
      alGet key cm2 = some 0 := by
  have main : ∃ cm1, composeCounterMany key samples cm0 = .ok cm1 ∧
      alGet key cm1 = some ((samples.map sampleVal).sum) := by
    rcases h0 with h0 | ⟨h0, hne⟩
    · obtain ⟨cm1, hrun, hval⟩ := composeCounterMany_ok key samples hr cm0 0 h0
      exact ⟨cm1, hrun, by simpa using hval⟩
    · cases samples with
      | nil => exact absurd rfl hne
      | cons p rest =>
        have hstep := compose_counter_ok key p cm0 (hr p (List.mem_cons_self p rest))
        have hget : alGet key (alSet key ((alGet key cm0).getD 0 + sampleVal p) cm0) =
            some (sampleVal p) := by
          rw [alGet_alSet_self, h0]
          simp
        obtain ⟨cm1, hrun, hval⟩ :=
          composeCounterMany_ok key rest (fun q hq => hr q (List.mem_cons_of_mem p hq))
            _ _ hget
        refine ⟨cm1, ?_, ?_⟩
        · simpa [composeCounterMany, hstep]
        · simpa using hval
  obtain ⟨cm1, hrun, hval⟩ := main
  refine ⟨cm1,
    cm1.map (fun kc =>
      [(prefixStats ++ kc.1, (pyInt (kc.2 / interval) : ℚ), ts),
       (prefixCounts ++ kc.1, kc.2, ts)]),
    cm1.map (fun kc => (kc.1, 0)),
    hrun, hval, ?_, ?_, ?_⟩
  · simp [flush_counter_metrics, hi]
  · exact List.mem_map_of_mem _ (alGet_mem key _ cm1 hval)
  · rw [alGet_map_zero, hval]
    rfl

/-- C2, witness: one sample `foo:3|c` (rate defaulted to 1), flushed at
10 s. -/
theorem c2_witness :
    ∃ cm1 gs cm2,
      composeCounterMany (strB "foo") [((3 : ℚ), none)] [] = .ok cm1 ∧
      alGet (strB "foo") cm1 = some (([((3 : ℚ), none)].map sampleVal).sum) ∧
      flush_counter_metrics 10 0 cm1 = .ok (gs, cm2) ∧
      [(prefixStats ++ strB "foo",
        (pyInt ((([((3 : ℚ), none)].map sampleVal).sum / 10) : ℚ) : ℚ), 0),
       (prefixCounts ++ strB "foo", ([((3 : ℚ), none)].map sampleVal).sum, 0)] ∈ gs ∧
      alGet (strB "foo") cm2 = some 0 :=
  c2_counter_accumulate_flush (strB "foo") [((3 : ℚ), none)] [] 10 0
    (Or.inr ⟨rfl, by simp⟩)
    (fun p hp => ⟨1, by
      have : p = ((3 : ℚ), none) := by simpa using hp
      simp [this, rateOf], by norm_num⟩)
    (by norm_num)

/-! ### Claim C6 -/

/-- C6, counterexample: the claim says `flush` converts the interval by
integer (truncating) division, so interval 1500 would give divisor 1 (and
value `int(3/1) = 3` for an accumulated count of 3) and interval 500
would divide by zero.  Under Python 3 the division is true division: at
interval 1500 the code emits value `int(3 / 1.5) = 2 ≠ 3`, and at
interval 500 it emits `int(3 / 0.5) = 6` without raising. -/
theorem c6_counterexample :
    flush opsTrivial 1500 90 { initState [] with counter_metrics := [(strB "k", 3)] } =
      .ok ([[(prefixStats ++ strB "k", 2, 0), (prefixCounts ++ strB "k", 3, 0)],
            [(prefixInternal ++ strB "numStats", 1, 0)],
            [(prefixInternal ++ strB "flush." ++ strB "counter" ++ strB ".count", 1, 0),
             (prefixInternal ++ strB "flush." ++ strB "counter" ++ strB ".duration", 0, 0)],
            [(prefixInternal ++ strB "flush." ++ strB "timer" ++ strB ".count", 0, 0),
             (prefixInternal ++ strB "flush." ++ strB "timer" ++ strB ".duration", 0, 0)],
            [(prefixInternal ++ strB "flush." ++ strB "gauge" ++ strB ".count", 0, 0),
             (prefixInternal ++ strB "flush." ++ strB "gauge" ++ strB ".duration", 0, 0)],
            [(prefixInternal ++ strB "flush." ++ strB "meter" ++ strB ".count", 0, 0),
             (prefixInternal ++ strB "flush." ++ strB "meter" ++ strB ".duration", 0, 0)],
            [(prefixInternal ++ strB "flush." ++ strB "plugin" ++ strB ".count", 0, 0),
             (prefixInternal ++ strB "flush." ++ strB "plugin" ++ strB ".duration", 0, 0)]],
           { initState [] with counter_metrics := [(strB "k", 0)], tfi := 11 }) ∧
    (2 : ℚ) ≠ ((pyInt ((3 : ℚ) / 1) : ℤ) : ℚ) ∧
    flush_counter_metrics ((500 : ℚ) / 1000) 0 [(strB "k", 3)] =
      .ok ([[(prefixStats ++ strB "k", 6, 0), (prefixCounts ++ strB "k", 3, 0)]],
           [(strB "k", 0)]) := by
  refine ⟨?_, ?_, ?_⟩
  · simp [flush, flush_counter_metrics, flush_timer_metrics, flushTimerGo,
      flush_gauge_metrics, flush_meter_metrics, flush_plugin_metrics,
      flush_metrics_summary, initState, opsTrivial, pyInt]
    norm_num
  · norm_num [pyInt]
  · simp [flush_counter_metrics]
    norm_num [pyInt]

/-- C6 (amended): `flush` converts the interval to seconds by Python 3
true division, `interval / 1000`; for any positive interval the divisor
is nonzero (so sub-second intervals do **not** divide by zero; 1500 ms
gives divisor 3/2, not 1), and the counter per-second value for an
accumulated count `c` is `int(c * 1000 / interval)`. -/
theorem c6_flush_interval_true_division (interval : ℚ) (h : 0 < interval) :
    (1500 : ℚ) / 1000 = 3 / 2 ∧
    interval / 1000 ≠ 0 ∧
    ∀ ts cm, flush_counter_metrics (interval / 1000) ts cm =
      .ok (cm.map (fun kc =>
             [(prefixStats ++ kc.1, (pyInt (kc.2 * 1000 / interval) : ℚ), ts),
              (prefixCounts ++ kc.1, kc.2, ts)]),
           cm.map (fun kc => (kc.1, 0))) := by
  have hne : interval / 1000 ≠ 0 := by positivity
  refine ⟨by norm_num, hne, fun ts cm => ?_⟩
  have hv : ∀ kc : ByteStr × ℚ, kc.2 / (interval / 1000) = kc.2 * 1000 / interval := by
    intro kc
    field_simp
  simp [flush_counter_metrics, hne, hv]

/-- C6, witness: interval 1500 ms on a slot holding 3. -/
theorem c6_witness :
    (0 : ℚ) < 1500 ∧
    flush_counter_metrics ((1500 : ℚ) / 1000) 0 [(strB "k", 3)] =
      .ok ([[(prefixStats ++ strB "k", (pyInt ((3 : ℚ) * 1000 / 1500) : ℚ), 0),
             (prefixCounts ++ strB "k", 3, 0)]],
           [(strB "k", 0)]) :=
  ⟨by norm_num, by
    have h := (c6_flush_interval_true_division 1500 (by norm_num)).2.2 0 [(strB "k", 3)]
    simpa using h⟩

theorem metricsFlushGo_ne_nil (data : ByteStr) (rest : List ByteStr) :
    metricsFlushGo data rest ≠ [] := by
  induction rest generalizing data with
  | nil => simp [metricsFlushGo]
  | cons stat r ih =>
    by_cases h : 512 ≤ stat.length + data.length + 1
    · simp [metricsFlushGo, h]
    · simpa [metricsFlushGo, h] using ih (data ++ 10 :: stat)

theorem joinNL_cons (x : ByteStr) (l : List ByteStr) (h : l ≠ []) :
    joinNL (x :: l) = x ++ 10 :: joinNL l := by
  cases l with
  | nil => exact absurd rfl h
  | cons y t => rfl

theorem metricsFlushGo_join (rest : List ByteStr) (data : ByteStr) :
    joinNL (metricsFlushGo data rest) = joinNL (data :: rest) := by
  induction rest generalizing data with
  | nil => rfl
  | cons stat r ih =>
    by_cases h : 512 ≤ stat.length + data.length + 1
    · rw [show metricsFlushGo data (stat :: r) = data :: metricsFlushGo stat r by
        simp [metricsFlushGo, h]]
      rw [joinNL_cons data _ (metricsFlushGo_ne_nil stat r), ih stat,
        joinNL_cons data (stat :: r) (by simp)]
    · rw [show metricsFlushGo data (stat :: r) = metricsFlushGo (data ++ 10 :: stat) r by
        simp [metricsFlushGo, h]]
      rw [ih (data ++ 10 :: stat), joinNL_cons data (stat :: r) (by simp)]
      cases r with
      | nil => rfl
      | cons z t =>
        rw [joinNL_cons (data ++ 10 :: stat) (z :: t) (by simp),
          joinNL_cons stat (z :: t) (by simp)]
        simp

theorem metricsFlushGo_bound (rest : List ByteStr) (data : ByteStr)
    (hr : ∀ l ∈ rest, l.length ≤ 511) (hd : data.length ≤ 511) :
    ∀ p ∈ metricsFlushGo data rest, p.length ≤ 511 := by
  induction rest generalizing data with
  | nil =>
    intro p hp
    simp [metricsFlushGo] at hp
    simpa [hp] using hd
  | cons stat r ih =>
    intro p hp
    by_cases h : 512 ≤ stat.length + data.length + 1
    · simp only [metricsFlushGo, h, if_pos] at hp
      rcases List.mem_cons.mp hp with rfl | hp
      · exact hd
      · exact ih stat (fun l hl => hr l (List.mem_cons_of_mem stat hl))
          (hr stat (List.mem_cons_self stat r)) p hp
    · simp only [metricsFlushGo, h, if_neg, not_false_eq_true] at hp
      refine ih (data ++ 10 :: stat) (fun l hl => hr l (List.mem_cons_of_mem stat hl)) ?_ p hp
      have : (data ++ 10 :: stat).length = data.length + 1 + stat.length := by
        simp
        omega
      omega

/-! ### Claim C9 -/

/-- C9, counterexample: the claim says every packet written by
`Metrics.flush` is at most 512 bytes.  A single pipelined line of 600
bytes is written as a single 600-byte packet. -/
theorem c9_counterexample :
    metricsFlush [List.replicate 600 97] = some [List.replicate 600 97] ∧
    (List.replicate 600 97).length = 600 ∧ ¬ ((600 : ℕ) ≤ 512) :=
  ⟨rfl, List.length_replicate 600 97, by norm_num⟩

/-- C9 (amended): `Metrics.flush` coalesces consecutive pipelined lines
joined by `\n` into packets — the packets concatenated with `\n` restore
the original line sequence — and, **provided every individual line is at
most 511 bytes**, every packet written is at most 511 bytes (hence under
the 512-byte limit); a longer single line is passed through as an
oversized packet. -/
theorem c9_metrics_flush_packets (lines packets : List ByteStr)
    (h : metricsFlush lines = some packets)
    (hlen : ∀ l ∈ lines, l.length ≤ 511) :
    (∀ p ∈ packets, p.length ≤ 511) ∧ joinNL packets = joinNL lines := by
  cases lines with
  | nil => simp [metricsFlush] at h
  | cons d rest =>
    have hp : packets = metricsFlushGo d rest := by
      simp only [metricsFlush] at h
      injection h with h'
      exact h'.symm
    subst hp
    exact ⟨metricsFlushGo_bound rest d (fun l hl => hlen l (List.mem_cons_of_mem d hl))
        (hlen d (List.mem_cons_self d rest)),
      metricsFlushGo_join rest d⟩

/-- C9, witness: two short lines coalesce into one packet. -/
theorem c9_witness :
    (∀ p ∈ [[97, 10, 98]], List.length p ≤ 511) ∧
    joinNL [[97, 10, 98]] = joinNL [[97], [98]] :=
  c9_metrics_flush_packets [[97], [98]] [[97, 10, 98]] rfl (by decide)

theorem append_middle_decomp {α : Type} (a b c d e f : List α) :
    ∃ x y r, a ++ b ++ c ++ d ++ e ++ f = x ++ y ++ c ++ r :=
  ⟨a, b, d ++ e ++ f, by simp [List.append_assoc]⟩

theorem flushGaugeRepeat_const (k : ℕ) (ts : ℤ) (gm : List (ℚ × ByteStr)) :
    flushGaugeRepeat k ts gm =
      List.replicate k (gm.map (fun m => [(prefixGauge ++ m.2 ++ strB ".value", m.1, ts)])) := by
  induction k with
  | zero => rfl
  | succ n ih => simp [flushGaugeRepeat, flush_gauge_metrics, List.replicate_succ, ih]

/-! ### Claim C5 -/

/-- C5: gauge state is retained across flushes.  `compose_gauge_metric`
appends `(value, key)`; a completed `flush` leaves `gauge_metrics`
unchanged and its emission stream contains, between the timer groups and
the meter groups, one `stats.gauge.<key>.value = value` singleton group
per stored pair in insertion order; and `k` consecutive gauge flushes
with no intervening samples emit the identical series `k` times. -/
theorem c5_gauge_retention {μ π : Type} (ops : Ops μ π) (interval : ℚ)
    (percent : ℕ) (st : ProcState μ π) (gs : List (List Emission))
    (st' : ProcState μ π) (k : ℕ) (ts : ℤ)
    (h : flush ops interval percent st = .ok (gs, st')) :
    st'.gauge_metrics = st.gauge_metrics ∧
    (∀ key v gm, compose_gauge_metric key v gm = gm ++ [(v, key)]) ∧
    (∃ cg tg rest, gs = cg ++ tg ++
      st.gauge_metrics.map (fun m =>
        [(prefixGauge ++ m.2 ++ strB ".value", m.1, pyInt (ops.tf st.tfi))]) ++ rest) ∧
    flushGaugeRepeat k ts st.gauge_metrics =
      List.replicate k (st.gauge_metrics.map (fun m =>
        [(prefixGauge ++ m.2 ++ strB ".value", m.1, ts)])) := by
  simp only [flush] at h
  split at h
  · simp at h
  · split at h
    · simp at h
    · injection h with hpair
      obtain ⟨hgs, hst⟩ := Prod.mk.inj hpair
      subst hgs
      subst hst
      refine ⟨?_, fun key v gm => rfl, ?_, flushGaugeRepeat_const k ts st.gauge_metrics⟩
      · simp [flush_metrics_summary]
      · simp only [flush_gauge_metrics]
        exact append_middle_decomp _ _ _ _ _ _

/-- C5, witness: one stored gauge pair, one flush, three repeated gauge
flushes. -/
theorem c5_witness :
    stC5'.gauge_metrics = stC5.gauge_metrics ∧
    (∀ key v gm, compose_gauge_metric key v gm = gm ++ [(v, key)]) ∧
    (∃ cg tg rest, gsC5 = cg ++ tg ++
      stC5.gauge_metrics.map (fun m =>
        [(prefixGauge ++ m.2 ++ strB ".value", m.1, pyInt (opsTrivial.tf stC5.tfi))]) ++ rest) ∧
    flushGaugeRepeat 3 0 stC5.gauge_metrics =
      List.replicate 3 (stC5.gauge_metrics.map (fun m =>
        [(prefixGauge ++ m.2 ++ strB ".value", m.1, 0)])) :=
  c5_gauge_retention opsTrivial 10000 90 stC5 gsC5 stC5' 3 0 (by
    simp [flush, flush_counter_metrics, flush_timer_metrics, flushTimerGo,
      flush_gauge_metrics, flush_meter_metrics, flush_plugin_metrics,
      flush_metrics_summary, stC5, stC5', gsC5, initState, opsTrivial, pyInt])

theorem pyInt_floor_case (x : ℚ) (z : ℤ) (h0 : 0 ≤ x) (h1 : (z : ℚ) ≤ x)
    (h2 : x < z + 1) : pyInt x = z := by
  unfold pyInt
  rw [if_neg (not_lt.mpr h0)]
  rw [Int.floor_eq_iff]
  exact ⟨h1, h2⟩

theorem pyInt_ceil_case (x : ℚ) (z : ℤ) (h0 : x < 0) (h1 : (z : ℚ) - 1 < x)
    (h2 : x ≤ z) : pyInt x = z := by
  unfold pyInt
  rw [if_pos h0]
  rw [Int.ceil_eq_iff]
  exact ⟨h1, h2⟩

theorem pyRound_down (x : ℚ) (f : ℤ) (hf1 : (f : ℚ) ≤ x) (hf2 : x < f + 1)
    (hlt : x - (f : ℚ) < 1 / 2) : pyRound x = f := by
  have hfl : ⌊x⌋ = f := by
    rw [Int.floor_eq_iff]
    exact ⟨hf1, hf2⟩
  unfold pyRound
  rw [hfl, if_pos hlt]

theorem pyRound_le_floor_add_one (x : ℚ) : pyRound x ≤ ⌊x⌋ + 1 := by
  unfold pyRound
  split
  · omega
  · split
    · omega
    · split
      · omega
      · omega

theorem headD_mem (l : List α) (d : α) (h : l ≠ []) : l.headD d ∈ l := by
  cases l with
  | nil => exact absurd rfl h
  | cons a t => simp

/-! ### Claim C3 -/

/-- C3, counterexample: the claim says the mean is
`floor(sum(kept) / (n - drop))`.  For the bucket `[-4, -3]` at percent 90
the code computes `int(-7 / 2) = -3` (truncation toward zero), while the
floor is `-4`. -/
theorem c3_counterexample :
    flushTimerBucket 90 0 (strB "t") [-4, -3] =
      some [(strB "stats.timers.t.count", 2, 0),
            (strB "stats.timers.t.lower", -4, 0),
            (strB "stats.timers.t.mean", -3, 0),
            (strB "stats.timers.t.upper", -3, 0),
            (strB "stats.timers.t.upper_90", -3, 0)] ∧
    Int.floor ((-4 + -3 : ℚ) / 2) = -4 ∧ ((-3 : ℤ) ≠ (-4 : ℤ)) := by
  refine ⟨?_, ?_, by decide⟩
  · have hs : isort ratLE [(-4 : ℚ), -3] = [-4, -3] := by norm_num [isort, insertB, ratLE]
    have hpr : pyRound ((1 : ℚ) / 5) = 0 :=
      pyRound_down _ 0 (by norm_num) (by norm_num) (by norm_num)
    have hpi : pyInt (-(7 / 2) : ℚ) = -3 :=
      pyInt_ceil_case _ _ (by norm_num) (by norm_num) (by norm_num)
    simp only [flushTimerBucket, hs]
    norm_num [timerGroup_eq]
    rw [hpr]
    norm_num [show Int.toNat 2 = 2 from rfl, hpi]
    refine ⟨?_, ?_, ?_, ?_, ?_⟩ <;>
      first | decide | norm_num | (constructor <;> first | decide | norm_num)
  · have : ((-4 : ℚ) + -3) / 2 = -(7 / 2) := by norm_num
    rw [this, show (-(7 / 2) : ℚ) = -((7 : ℚ) / 2) from rfl, Int.floor_neg]
    norm_num
    rw [Int.ceil_eq_iff] <;> norm_num

/-- C3 (amended): for a non-empty bucket, `flush_timer_metrics` emits the
name-sorted five-entry group whose values are exactly those of
`specTimerStats` — the claim's formulas with `round` as Python's
half-to-even rounding and the mean as the **truncation toward zero** of
`sum(kept) / (n - drop)` (the claim said floor) — whenever `n - drop` is
positive; `.count` is `n`, `.lower` is a lower bound and `.upper` an
upper bound of every sample. -/
theorem c3_timer_flush_formula (percent : ℕ) (ts : ℤ) (key : ByteStr)
    (timers : List ℚ) (hne : timers ≠ [])
    (hidx : 1 < timers.length →
      0 < (timers.length : ℤ) - pyRound ((1 - (percent : ℚ) / 100) * (timers.length : ℚ))) :
    flushTimerBucket percent ts key timers =
      some [((prefixTimer ++ key) ++ strB ".count", ((specTimerStats percent timers).2.2.2.2 : ℚ), ts),
            ((prefixTimer ++ key) ++ strB ".lower", (specTimerStats percent timers).1, ts),
            ((prefixTimer ++ key) ++ strB ".mean", (specTimerStats percent timers).2.1, ts),
            ((prefixTimer ++ key) ++ strB ".upper", (specTimerStats percent timers).2.2.2.1, ts),
            ((prefixTimer ++ key) ++ (strB ".upper_" ++ natDigits percent),
              (specTimerStats percent timers).2.2.1, ts)] ∧
    (specTimerStats percent timers).2.2.2.2 = timers.length ∧
    (∀ x ∈ timers, (specTimerStats percent timers).1 ≤ x) ∧
    (∀ x ∈ timers, x ≤ (specTimerStats percent timers).2.2.2.1) := by
  have hlen : 0 < timers.length := List.length_pos.mpr hne
  have htv : ((100 : ℚ) - (percent : ℚ)) / 100 = 1 - (percent : ℚ) / 100 := by ring
  have hsorted := isort_sorted_rat timers
  have hmin : ∀ x ∈ timers, (isort ratLE timers).headD 0 ≤ x := fun x hx =>
    pairwise_headD_le _ 0 hsorted x ((mem_isort _ _ _).mpr hx)
  have hmax : ∀ x ∈ timers, x ≤ (isort ratLE timers).getLastD 0 := fun x hx =>
    pairwise_le_getLastD _ 0 hsorted x ((mem_isort _ _ _).mpr hx)
  by_cases hn : 1 < timers.length
  · have hidx' := hidx hn
    have hne1 : ¬ (timers.length = 1) := by omega
    simp only [flushTimerBucket, specTimerStats, htv, if_pos hn, if_neg hne1,
      if_neg (not_le.mpr hidx'), timerGroup_eq]
    refine ⟨?_, trivial, hmin, by simpa using hmax⟩
    push_cast
    rfl
  · have hn1 : timers.length = 1 := by omega
    simp only [flushTimerBucket, specTimerStats, if_neg hn, if_pos hn1, timerGroup_eq]
    exact ⟨trivial, trivial, hmin, by simpa using hmax⟩

/-- C3, witness: spec scenario 3, the bucket `[100, 200, 300]` at
percent 90 (drop = round(0.3) = 0, all samples kept, mean 200). -/
theorem c3_witness :
    flushTimerBucket 90 0 (strB "t") [100, 200, 300] =
      some [((prefixTimer ++ strB "t") ++ strB ".count",
              ((specTimerStats 90 [100, 200, 300]).2.2.2.2 : ℚ), 0),
            ((prefixTimer ++ strB "t") ++ strB ".lower",
              (specTimerStats 90 [100, 200, 300]).1, 0),
            ((prefixTimer ++ strB "t") ++ strB ".mean",
              (specTimerStats 90 [100, 200, 300]).2.1, 0),
            ((prefixTimer ++ strB "t") ++ strB ".upper",
              (specTimerStats 90 [100, 200, 300]).2.2.2.1, 0),
            ((prefixTimer ++ strB "t") ++ (strB ".upper_" ++ natDigits 90),
              (specTimerStats 90 [100, 200, 300]).2.2.1, 0)] ∧
    (specTimerStats 90 [100, 200, 300]).2.2.2.2 = ([(100 : ℚ), 200, 300]).length ∧
    (∀ x ∈ [(100 : ℚ), 200, 300], (specTimerStats 90 [100, 200, 300]).1 ≤ x) ∧
    (∀ x ∈ [(100 : ℚ), 200, 300], x ≤ (specTimerStats 90 [100, 200, 300]).2.2.2.1) :=
  c3_timer_flush_formula 90 0 (strB "t") [100, 200, 300] (by simp)
    (by
      intro _
      have ha : (1 - ((90 : ℕ) : ℚ) / 100) * (([(100 : ℚ), 200, 300].length : ℕ) : ℚ) =
          3 / 10 := by norm_num
      rw [ha, pyRound_down (3 / 10) 0 (by norm_num) (by norm_num) (by norm_num)]
      norm_num)

/-! ### Claim C4 -/

/-- C4, counterexample: the claim says `lower ≤ mean` for every non-empty
bucket at percent 90.  For the bucket `[1/2, 1/2]` the code emits
`mean = int(0.5) = 0 < 1/2 = lower`. -/
theorem c4_counterexample :
    flushTimerBucket 90 0 (strB "t") [1 / 2, 1 / 2] =
      some [(strB "stats.timers.t.count", 2, 0),
            (strB "stats.timers.t.lower", 1 / 2, 0),
            (strB "stats.timers.t.mean", 0, 0),
            (strB "stats.timers.t.upper", 1 / 2, 0),
            (strB "stats.timers.t.upper_90", 1 / 2, 0)] ∧
    ¬ ((1 / 2 : ℚ) ≤ 0) := by
  constructor
  · have hs : isort ratLE [(1 : ℚ) / 2, 1 / 2] = [1 / 2, 1 / 2] := by
      norm_num [isort, insertB, ratLE]
    simp only [flushTimerBucket, hs]
    norm_num [pyRound, pyInt, timerGroup_eq, show Int.toNat 2 = 2 from rfl]
    refine ⟨?_, ?_, ?_, ?_, ?_⟩ <;>
      first | decide | norm_num | (constructor <;> first | decide | norm_num)
  · norm_num

/-- C4 (amended): for every non-empty timer bucket **all of whose samples
are integer-valued** (the counterexample forces this restriction: the
truncated mean of fractional samples can cross below `lower` or above
`threshold_upper`), the five values emitted at flush with the default
percent 90 satisfy `lower ≤ mean ≤ threshold_upper ≤ upper`, and the
emitted count equals the number of samples in the bucket. -/
theorem c4_timer_invariant (ts : ℤ) (key : ByteStr) (timers : List ℚ)
    (hne : timers ≠ []) (hint : ∀ x ∈ timers, ∃ z : ℤ, x = (z : ℚ)) :
    ∃ lo m tu up, flushTimerBucket 90 ts key timers =
      some [((prefixTimer ++ key) ++ strB ".count", (timers.length : ℚ), ts),
            ((prefixTimer ++ key) ++ strB ".lower", lo, ts),
            ((prefixTimer ++ key) ++ strB ".mean", m, ts),
            ((prefixTimer ++ key) ++ strB ".upper", up, ts),
            ((prefixTimer ++ key) ++ (strB ".upper_" ++ natDigits 90), tu, ts)] ∧
      lo ≤ m ∧ m ≤ tu ∧ tu ≤ up := by
  have hlen : 0 < timers.length := List.length_pos.mpr hne
  have hsorted := isort_sorted_rat timers
  have hslen : (isort ratLE timers).length = timers.length := isort_length ratLE timers
  have hsne : isort ratLE timers ≠ [] := by
    intro hcon
    rw [hcon] at hslen
    simp at hslen
    omega
  have hmin : ∀ x ∈ isort ratLE timers, (isort ratLE timers).headD 0 ≤ x := fun x hx =>
    pairwise_headD_le _ 0 hsorted x hx
  have hmax : ∀ x ∈ isort ratLE timers, x ≤ (isort ratLE timers).getLastD 0 := fun x hx =>
    pairwise_le_getLastD _ 0 hsorted x hx
  have hint' : ∀ x ∈ isort ratLE timers, ∃ z : ℤ, x = (z : ℚ) := fun x hx =>
    hint x ((mem_isort _ _ _).mp hx)
  by_cases hn : 1 < timers.length
  · -- two or more samples: the trimmed branch
    have h110 : ((100 : ℚ) - ((90 : ℕ) : ℚ)) / 100 = 1 / 10 := by norm_num
    set n := timers.length with hnn
    set drop : ℤ := pyRound ((1 / 10) * (n : ℚ)) with hdrop
    have hn2 : (2 : ℚ) ≤ (n : ℚ) := by exact_mod_cast hn
    have hdrop0 : 0 ≤ drop := pyRound_nonneg _ (by positivity)
    have hdropn : drop ≤ (n : ℤ) - 1 := by
      have h1 : pyRound ((1 / 10) * (n : ℚ)) ≤ ⌊(1 / 10 : ℚ) * (n : ℚ)⌋ + 1 :=
        pyRound_le_floor_add_one _
      have h2 : ⌊(1 / 10 : ℚ) * (n : ℚ)⌋ < (n : ℤ) - 1 := by
        rw [Int.floor_lt]
        push_cast
        linarith
      omega
    have hidxpos : 0 < (n : ℤ) - drop := by omega
    have hidxle : ¬ ((n : ℤ) - drop ≤ 0) := by omega
    set kept := (isort ratLE timers).take ((n : ℤ) - drop).toNat with hkept
    have hkl : kept.length = ((n : ℤ) - drop).toNat := by
      rw [hkept, List.length_take, hslen]
      have : ((n : ℤ) - drop).toNat ≤ n := by omega
      omega
    have hkne : kept ≠ [] := by
      have : 0 < kept.length := by
        rw [hkl]
        omega
      exact List.ne_nil_of_length_pos this
    have hksorted : kept.Pairwise (· ≤ ·) :=
      List.Pairwise.sublist (List.take_sublist _ _) hsorted
    have hksub : ∀ x ∈ kept, x ∈ isort ratLE timers := fun x hx =>
      List.take_subset _ _ hx
    set lo := (isort ratLE timers).headD 0 with hlo
    set up := (isort ratLE timers).getLastD 0 with hup
    set tu := kept.getLastD 0 with htu
    have htumem : tu ∈ kept := getLastD_mem kept 0 hkne
    have hlo_le_kept : ∀ x ∈ kept, lo ≤ x := fun x hx => hmin x (hksub x hx)
    have hkept_le_tu : ∀ x ∈ kept, x ≤ tu := fun x hx =>
      pairwise_le_getLastD kept 0 hksorted x hx
    have htu_le_up : tu ≤ up := hmax tu (hksub tu htumem)
    have hsum1 : lo * kept.length ≤ kept.sum := le_sum_of_forall_le kept lo hlo_le_kept
    have hsum2 : kept.sum ≤ tu * kept.length := sum_le_of_forall_le kept tu hkept_le_tu
    have hklq : (kept.length : ℚ) = (((n : ℤ) - drop : ℤ) : ℚ) := by
      rw [hkl]
      exact_mod_cast congrArg (Int.cast : ℤ → ℚ) (Int.toNat_of_nonneg hidxpos.le)
    have hqpos : (0 : ℚ) < (((n : ℤ) - drop : ℤ) : ℚ) := by exact_mod_cast hidxpos
    have hlodiv : lo ≤ kept.sum / (((n : ℤ) - drop : ℤ) : ℚ) := by
      rw [le_div_iff hqpos]
      calc lo * (((n : ℤ) - drop : ℤ) : ℚ) = lo * kept.length := by rw [hklq]
      _ ≤ kept.sum := hsum1
    have hdivtu : kept.sum / (((n : ℤ) - drop : ℤ) : ℚ) ≤ tu := by
      rw [div_le_iff hqpos]
      calc kept.sum ≤ tu * kept.length := hsum2
      _ = tu * (((n : ℤ) - drop : ℤ) : ℚ) := by rw [hklq]
    obtain ⟨zlo, hzlo⟩ := hint' lo (headD_mem _ 0 hsne)
    obtain ⟨ztu, hztu⟩ := hint' tu (hksub tu htumem)
    have hmean1 : zlo ≤ pyInt (kept.sum / (((n : ℤ) - drop : ℤ) : ℚ)) :=
      le_pyInt zlo _ (by rw [← hzlo]; exact hlodiv)
    have hmean2 : pyInt (kept.sum / (((n : ℤ) - drop : ℤ) : ℚ)) ≤ ztu :=
      pyInt_le ztu _ (by rw [← hztu]; exact hdivtu)
    refine ⟨lo, (pyInt (kept.sum / (((n : ℤ) - drop : ℤ) : ℚ)) : ℚ), tu, up, ?_, ?_, ?_, htu_le_up⟩
    · simp only [flushTimerBucket, h110, if_pos hn, if_neg hidxle, timerGroup_eq]
    · rw [hzlo]
      exact_mod_cast hmean1
    · rw [hztu]
      exact_mod_cast hmean2
  · -- exactly one sample
    have hlo_le_up : (isort ratLE timers).headD 0 ≤ (isort ratLE timers).getLastD 0 :=
      hmax _ (headD_mem _ 0 hsne)
    refine ⟨(isort ratLE timers).headD 0, (isort ratLE timers).headD 0,
      (isort ratLE timers).getLastD 0, (isort ratLE timers).getLastD 0, ?_, le_refl _,
      hlo_le_up, le_refl _⟩
    simp only [flushTimerBucket, if_neg hn, timerGroup_eq]

/-- C4, witness: the integer bucket `[3, 1, 2]`. -/
theorem c4_witness :
    ∃ lo m tu up, flushTimerBucket 90 0 (strB "t") [3, 1, 2] =
      some [((prefixTimer ++ strB "t") ++ strB ".count", (([(3 : ℚ), 1, 2]).length : ℚ), 0),
            ((prefixTimer ++ strB "t") ++ strB ".lower", lo, 0),
            ((prefixTimer ++ strB "t") ++ strB ".mean", m, 0),
            ((prefixTimer ++ strB "t") ++ strB ".upper", up, 0),
            ((prefixTimer ++ strB "t") ++ (strB ".upper_" ++ natDigits 90), tu, 0)] ∧
      lo ≤ m ∧ m ≤ tu ∧ tu ≤ up :=
  c4_timer_invariant 0 (strB "t") [3, 1, 2] (by simp)
    (fun x hx => by
      have hx' : x = 3 ∨ x = 1 ∨ x = 2 := by simpa using hx
      rcases hx' with h | h | h
      · exact ⟨3, by rw [h]; norm_num⟩
      · exact ⟨1, by rw [h]; norm_num⟩
      · exact ⟨2, by rw [h]; norm_num⟩)

theorem dropWhile_eq_self_of_head (p : Nat → Bool) (l : ByteStr)
    (h : ∀ b, l.head? = some b → p b = false) : l.dropWhile p = l := by
  cases l with
  | nil => rfl
  | cons a t => simp [List.dropWhile, h a rfl]

theorem pyStrip_eq_self (s : ByteStr)
    (h1 : ∀ b, s.head? = some b → isWS b = false)
    (h2 : ∀ b, s.getLast? = some b → isWS b = false) : pyStrip s = s := by
  unfold pyStrip
  rw [dropWhile_eq_self_of_head _ _ h1]
  rw [dropWhile_eq_self_of_head _ _ (fun b hb => h2 b (by rwa [← List.head?_reverse]))]
  exact List.reverse_reverse s

theorem splitFirst_append (key rest : ByteStr) (h : 58 ∉ key) :
    splitFirst 58 (key ++ 58 :: rest) = (key, rest) := by
  induction key with
  | nil => simp [splitFirst]
  | cons a t ih =>
    have ha : a ≠ 58 := fun hc => h (hc ▸ List.mem_cons_self a t)
    have ht : 58 ∉ t := fun hc => h (List.mem_cons_of_mem a hc)
    simp only [List.cons_append, splitFirst, ha, if_neg, not_false_eq_true,
      List.append_eq, ih ht]

theorem pySplit_sepless (c : Nat) (x : ByteStr) (h : c ∉ x) : pySplit c x = [x] := by
  induction x with
  | nil => rfl
  | cons a t ih =>
    have ha : a ≠ c := fun hc => h (hc ▸ List.mem_cons_self a t)
    have ht : c ∉ t := fun hc => h (List.mem_cons_of_mem a hc)
    simp only [pySplit, ha, if_neg, not_false_eq_true, ih ht]

theorem pySplit_append (c : Nat) (x y : ByteStr) (h : c ∉ x) :
    pySplit c (x ++ c :: y) = x :: pySplit c y := by
  induction x with
  | nil => simp [pySplit]
  | cons a t ih =>
    have ha : a ≠ c := fun hc => h (hc ▸ List.mem_cons_self a t)
    have ht : c ∉ t := fun hc => h (List.mem_cons_of_mem a hc)
    simp only [List.cons_append, pySplit, ha, if_neg, not_false_eq_true,
      List.append_eq, ih ht]

theorem safe_not_ws (b : Nat) (h : isSafeByte b = true) : isWS b = false := by
  simp only [isSafeByte, isDigit, Bool.or_eq_true, Bool.and_eq_true, decide_eq_true_eq,
    beq_iff_eq] at h
  simp only [isWS, Bool.or_eq_false_iff, beq_eq_false_iff_ne]
  omega

theorem safe_not_colon (b : Nat) (h : isSafeByte b = true) : b ≠ 58 := by
  simp only [isSafeByte, isDigit, Bool.or_eq_true, Bool.and_eq_true, decide_eq_true_eq,
    beq_iff_eq] at h
  omega

theorem safe_not_slash (b : Nat) (h : isSafeByte b = true) : b ≠ 47 := by
  simp only [isSafeByte, isDigit, Bool.or_eq_true, Bool.and_eq_true, decide_eq_true_eq,
    beq_iff_eq] at h
  omega

theorem normalize_key_safe (key : ByteStr) (h : ∀ b ∈ key, isSafeByte b) :
    normalize_key key = .ok key := by
  unfold normalize_key
  rw [if_neg, if_neg, if_neg]
  · simp only [List.any_eq_true, not_exists, not_and, Bool.not_eq_true]
    intro b hb
    simp [h b hb]
  · simp only [List.any_eq_true, not_exists, not_and]
    intro b hb
    simp [beq_eq_false_iff_ne.mpr (safe_not_slash b (h b hb))]
  · simp only [List.any_eq_true, not_exists, not_and]
    intro b hb
    simp [safe_not_ws b (h b hb)]

/-! ### Claim C7 -/

/-- C7: in every fully consumed flush, the `statsd.numStats` value equals
the sum of the five per-kind `statsd.flush.<k>.count` values emitted in
the same flush: the summary block exhibits `numStats` literally as the
sum of the five per-kind group counts. -/
theorem c7_numStats_eq_sum {μ π : Type} (ops : Ops μ π) (interval : ℚ) (percent : ℕ)
    (st : ProcState μ π) (gs : List (List Emission)) (st' : ProcState μ π)
    (h : flush ops interval percent st = .ok (gs, st')) :
    ∃ cg tg gg mg pg d1 d2 d3 d4 d5 recv,
      gs = cg ++ tg ++ gg ++ mg ++ pg ++
        ([(prefixInternal ++ strB "numStats",
            ((cg.length + tg.length + gg.length + mg.length + pg.length : ℕ) : ℚ),
            pyInt (ops.tf st.tfi))] ::
          [(prefixInternal ++ strB "flush." ++ strB "counter" ++ strB ".count",
             ((cg.length : ℕ) : ℚ), pyInt (ops.tf st.tfi)),
           (prefixInternal ++ strB "flush." ++ strB "counter" ++ strB ".duration",
             d1 * 1000, pyInt (ops.tf st.tfi))] ::
          [(prefixInternal ++ strB "flush." ++ strB "timer" ++ strB ".count",
             ((tg.length : ℕ) : ℚ), pyInt (ops.tf st.tfi)),
           (prefixInternal ++ strB "flush." ++ strB "timer" ++ strB ".duration",
             d2 * 1000, pyInt (ops.tf st.tfi))] ::
          [(prefixInternal ++ strB "flush." ++ strB "gauge" ++ strB ".count",
             ((gg.length : ℕ) : ℚ), pyInt (ops.tf st.tfi)),
           (prefixInternal ++ strB "flush." ++ strB "gauge" ++ strB ".duration",
             d3 * 1000, pyInt (ops.tf st.tfi))] ::
          [(prefixInternal ++ strB "flush." ++ strB "meter" ++ strB ".count",
             ((mg.length : ℕ) : ℚ), pyInt (ops.tf st.tfi)),
           (prefixInternal ++ strB "flush." ++ strB "meter" ++ strB ".duration",
             d4 * 1000, pyInt (ops.tf st.tfi))] ::
          [(prefixInternal ++ strB "flush." ++ strB "plugin" ++ strB ".count",
             ((pg.length : ℕ) : ℚ), pyInt (ops.tf st.tfi)),
           (prefixInternal ++ strB "flush." ++ strB "plugin" ++ strB ".duration",
             d5 * 1000, pyInt (ops.tf st.tfi))] :: recv) := by
  simp only [flush] at h
  split at h
  · simp at h
  · rename_i cres hc
    split at h
    · simp at h
    · rename_i tres htm
      injection h with hpair
      obtain ⟨hgs, hst⟩ := Prod.mk.inj hpair
      subst hgs
      refine ⟨cres.1, tres.1, (flush_gauge_metrics (pyInt (ops.tf st.tfi)) st.gauge_metrics).1,
        (flush_meter_metrics ops (pyInt (ops.tf st.tfi)) st.meter_metrics).1,
        (flush_plugin_metrics ops (interval / 1000) (pyInt (ops.tf st.tfi)) st.plugin_metrics).1,
        ops.tf (st.tfi + 2) - ops.tf (st.tfi + 1),
        ops.tf (st.tfi + 4) - ops.tf (st.tfi + 3),
        ops.tf (st.tfi + 6) - ops.tf (st.tfi + 5),
        ops.tf (st.tfi + 8) - ops.tf (st.tfi + 7),
        ops.tf (st.tfi + 10) - ops.tf (st.tfi + 9),
        st.process_timings.map (fun md =>
          [(prefixInternal ++ strB "receive." ++ md.1 ++ strB ".count",
            (((alGet md.1 st.by_type).getD 0 : ℕ) : ℚ), pyInt (ops.tf st.tfi)),
           (prefixInternal ++ strB "receive." ++ md.1 ++ strB ".duration",
            md.2 * 1000, pyInt (ops.tf st.tfi))]), ?_⟩
      simp [flush_metrics_summary]

/-- C7, witness: the flush of a fresh processor (all five counts 0,
`numStats = 0`). -/
theorem c7_witness :
    ∃ cg tg gg mg pg d1 d2 d3 d4 d5 recv,
      gsC7 = cg ++ tg ++ gg ++ mg ++ pg ++
        ([(prefixInternal ++ strB "numStats",
            ((cg.length + tg.length + gg.length + mg.length + pg.length : ℕ) : ℚ),
            pyInt (opsTrivial.tf (initState (μ := Unit) (π := Unit) []).tfi))] ::
          [(prefixInternal ++ strB "flush." ++ strB "counter" ++ strB ".count",
             ((cg.length : ℕ) : ℚ), pyInt (opsTrivial.tf (initState (μ := Unit) (π := Unit) []).tfi)),
           (prefixInternal ++ strB "flush." ++ strB "counter" ++ strB ".duration",
             d1 * 1000, pyInt (opsTrivial.tf (initState (μ := Unit) (π := Unit) []).tfi))] ::
          [(prefixInternal ++ strB "flush." ++ strB "timer" ++ strB ".count",
             ((tg.length : ℕ) : ℚ), pyInt (opsTrivial.tf (initState (μ := Unit) (π := Unit) []).tfi)),
           (prefixInternal ++ strB "flush." ++ strB "timer" ++ strB ".duration",
             d2 * 1000, pyInt (opsTrivial.tf (initState (μ := Unit) (π := Unit) []).tfi))] ::
          [(prefixInternal ++ strB "flush." ++ strB "gauge" ++ strB ".count",
             ((gg.length : ℕ) : ℚ), pyInt (opsTrivial.tf (initState (μ := Unit) (π := Unit) []).tfi)),
           (prefixInternal ++ strB "flush." ++ strB "gauge" ++ strB ".duration",
             d3 * 1000, pyInt (opsTrivial.tf (initState (μ := Unit) (π := Unit) []).tfi))] ::
          [(prefixInternal ++ strB "flush." ++ strB "meter" ++ strB ".count",
             ((mg.length : ℕ) : ℚ), pyInt (opsTrivial.tf (initState (μ := Unit) (π := Unit) []).tfi)),
           (prefixInternal ++ strB "flush." ++ strB "meter" ++ strB ".duration",
             d4 * 1000, pyInt (opsTrivial.tf (initState (μ := Unit) (π := Unit) []).tfi))] ::
          [(prefixInternal ++ strB "flush." ++ strB "plugin" ++ strB ".count",
             ((pg.length : ℕ) : ℚ), pyInt (opsTrivial.tf (initState (μ := Unit) (π := Unit) []).tfi)),
           (prefixInternal ++ strB "flush." ++ strB "plugin" ++ strB ".duration",
             d5 * 1000, pyInt (opsTrivial.tf (initState (μ := Unit) (π := Unit) []).tfi))] :: recv) :=
  c7_numStats_eq_sum opsTrivial 10000 90 (initState []) gsC7
    { initState [] with tfi := 11 } (by
      simp [flush, flush_counter_metrics, flush_timer_metrics, flushTimerGo,
        flush_gauge_metrics, flush_meter_metrics, flush_plugin_metrics,
        flush_metrics_summary, initState, opsTrivial, pyInt, gsC7])

theorem head?_append_left (l₁ l₂ : List α) (h : l₁ ≠ []) :
    (l₁ ++ l₂).head? = l₁.head? := by
  cases l₁ with
  | nil => exact absurd rfl h
  | cons a t => rfl

theorem getLast?_append_right (l₁ l₂ : List α) (h : l₂ ≠ []) :
    (l₁ ++ l₂).getLast? = l₂.getLast? := by
  rw [← List.head?_reverse, ← List.head?_reverse, List.reverse_append]
  exact head?_append_left _ _ (by simpa using h)

/-! ### Claim C10 -/

/-- C10: for a counter payload `key:f1|c|f3` (safe non-empty key, no `|`
in `f1`/`f3`, no trailing whitespace, parseable value `f1`), the third
field is accepted exactly when it matches `^@[0-9.]+` (a `fail`-logged
drop otherwise); when it matches with group `g`, an unparseable
`float(g)` (`ValueError`) or a zero rate (`ZeroDivisionError` from
`1 / float(rate)`) makes `process` raise instead of logging and dropping,
and a nonzero parseable rate is accepted normally. -/
theorem c10_counter_rate_match {μ π : Type} (ops : Ops μ π) (st : ProcState μ π)
    (key f1 f3 : ByteStr) (v : ℚ)
    (hkne : key ≠ []) (hkey : ∀ b ∈ key, isSafeByte b)
    (hf1p : (124 : ℕ) ∉ f1) (hf3p : (124 : ℕ) ∉ f3)
    (hf3w : ∀ b, f3.getLast? = some b → isWS b = false)
    (hv : pyFloat f1 = some v) :
    (rateMatch f3 = none →
      process ops (key ++ 58 :: (f1 ++ 124 :: 99 :: 124 :: f3)) st =
        .failed (afterTimings ops (strB "c") (ops.tf st.tfi) { st with tfi := st.tfi + 1 })) ∧
    (∀ g, rateMatch f3 = some g → pyFloat g = none ∨ pyFloat g = some 0 →
      (process ops (key ++ 58 :: (f1 ++ 124 :: 99 :: 124 :: f3)) st).isExn = true) ∧
    (∀ g r, rateMatch f3 = some g → pyFloat g = some r → r ≠ 0 →
      (process ops (key ++ 58 :: (f1 ++ 124 :: 99 :: 124 :: f3)) st).isOk = true) ∧
    ((process ops (key ++ 58 :: (f1 ++ 124 :: 99 :: 124 :: f3)) st).isFailed = true ↔
      rateMatch f3 = none) := by
  set message := key ++ 58 :: (f1 ++ 124 :: 99 :: 124 :: f3) with hmsg
  have hmem : (58 : ℕ) ∈ message := List.mem_append.mpr (Or.inr (List.mem_cons_self _ _))
  have hmemdata : (124 : ℕ) ∈ f1 ++ 124 :: 99 :: 124 :: f3 :=
    List.mem_append.mpr (Or.inr (List.mem_cons_self _ _))
  have hhead : ∀ b, message.head? = some b → isWS b = false := by
    intro b hb
    cases key with
    | nil => exact absurd rfl hkne
    | cons a t =>
      rw [hmsg] at hb
      simp only [List.cons_append, List.head?_cons, Option.some.injEq] at hb
      subst hb
      exact safe_not_ws a (hkey a (List.mem_cons_self a t))
  have hlast : ∀ b, message.getLast? = some b → isWS b = false := by
    intro b hb
    have hre : message = (key ++ 58 :: (f1 ++ [124, 99])) ++ 124 :: f3 := by
      simp [hmsg, List.append_assoc]
    rw [hre, getLast?_append_right _ _ (by simp)] at hb
    cases f3 with
    | nil =>
      simp only [List.getLast?_singleton, Option.some.injEq] at hb
      subst hb
      rfl
    | cons c u =>
      rw [show (124 :: c :: u : ByteStr) = [124] ++ c :: u from rfl,
        getLast?_append_right _ _ (by simp)] at hb
      exact hf3w b hb
  have hstrip : pyStrip message = message := pyStrip_eq_self _ hhead hlast
  have hsfirst : splitFirst 58 message = (key, f1 ++ 124 :: 99 :: 124 :: f3) :=
    splitFirst_append key (f1 ++ 124 :: 99 :: 124 :: f3)
      (fun hc => absurd rfl (safe_not_colon 58 (hkey 58 hc)))
  have hfields : pySplit 124 (f1 ++ 124 :: 99 :: 124 :: f3) = [f1, [99], f3] := by
    rw [pySplit_append 124 f1 _ hf1p,
      show (99 :: 124 :: f3 : ByteStr) = [99] ++ 124 :: f3 from rfl,
      pySplit_append 124 [99] f3 (by decide), pySplit_sepless 124 f3 hf3p]
  have hnorm : normalize_key key = .ok key := normalize_key_safe key hkey
  have hcc : strB "c" = ([99] : ByteStr) := rfl
  have hdec : (decide (([99] : ByteStr) = [99])) = true := by decide
  have hproc : process ops message st =
      (match process_counter_metric key [f1, [99], f3] { st with tfi := st.tfi + 1 } with
       | .exn s => .exn s
       | .ok s => .ok (afterTimings ops (strB "c") (ops.tf st.tfi) s)
       | .failed s => .failed (afterTimings ops (strB "c") (ops.tf st.tfi) s)) := by
    simp only [process, hmem, not_true_eq_false, if_false, hstrip, hsfirst, hfields, hnorm,
      hmemdata, List.length_cons, List.length_nil, List.getD_cons_zero, List.getD_cons_succ,
      process_message, hcc, hdec, Bool.true_or]
    norm_num
  refine ⟨?_, ?_, ?_, ?_⟩
  · intro hrm
    rw [hproc]
    simp only [process_counter_metric, List.headD_cons, hv, List.length_cons,
      List.length_nil, List.getD_cons_zero, List.getD_cons_succ, hrm]
    norm_num
  · intro g hrm hbad
    rw [hproc]
    rcases hbad with hb | hb <;>
      simp only [process_counter_metric, List.headD_cons, hv, List.length_cons,
        List.length_nil, List.getD_cons_zero, List.getD_cons_succ, hrm,
        compose_counter_metric, hb] <;>
      norm_num [POut.isExn]
  · intro g r hrm hfg hr0
    rw [hproc]
    simp only [process_counter_metric, List.headD_cons, hv, List.length_cons,
      List.length_nil, List.getD_cons_zero, List.getD_cons_succ, hrm,
      compose_counter_metric, hfg, hr0, if_neg]
    norm_num [POut.isOk, hr0]
  · cases hrm : rateMatch f3 with
    | none =>
      rw [hproc]
      simp only [process_counter_metric, List.headD_cons, hv, List.length_cons,
        List.length_nil, List.getD_cons_zero, List.getD_cons_succ, hrm]
      norm_num [POut.isFailed]
    | some g =>
      rw [hproc]
      simp only [process_counter_metric, List.headD_cons, hv, List.length_cons,
        List.length_nil, List.getD_cons_zero, List.getD_cons_succ, hrm,
        compose_counter_metric]
      cases hfg : pyFloat g with
      | none => simp [POut.isFailed]
      | some r =>
        by_cases hr : r = 0
        · simp only [hr, if_pos rfl]
          simp [POut.isFailed]
        · simp only [if_neg hr]
          simp [POut.isFailed]

/-- C10, witness: the payload `k:1|c|@0` — the rate field matches the
regex with group `0`, `float(b"0") = 0`, and `process` raises
(`ZeroDivisionError`). -/
theorem c10_witness :
    (process opsTrivial (strB "k:1|c|@0") (initState [])).isExn = true :=
  (c10_counter_rate_match opsTrivial (initState []) (strB "k") (strB "1") (strB "@0") 1
    (by decide) (by decide) (by decide) (by decide)
    (fun b hb => by
      have h48 : b = 48 := by
        have he : (strB "@0").getLast? = some 48 := rfl
        rw [he] at hb
        exact (Option.some.inj hb).symm
      rw [h48]
      rfl)
    (by
      have hr : pyFloatRaw (strB "1") = some (false, 1, 0, false, 0) := by decide
      simp [pyFloat, hr, floatValue])).2.1 (strB "0") (by decide)
    (Or.inr (by
      have hr : pyFloatRaw (strB "0") = some (false, 0, 0, false, 0) := by decide
      simp [pyFloat, hr, floatValue]))
